import Mathlib

/-!
Result summary model of the neo4j Go driver (`summary.go`)

Shallow embedding of the result-metadata records of package `neo4j` and of their
accessor methods.

Conventions of the embedding

* A Go struct is a Lean structure with the same field names.
* A Go pointer `*T` is `Ptr T = Option T`; `none` is the nil pointer.  Nothing in the
  file writes through a pointer, so a non-nil pointer is identified with the value it
  points to.
* Every accessor of the file has a pointer receiver and reads a field of it, so the
  embedded accessor takes a `Ptr` and returns `Except GoPanic _`: the call on a nil
  receiver is the run-time panic `nilDereference`.
* A Go slice `[]T` is `Slice T = Option (List T)` and a Go map with string keys is
  `StringMap V = Option (List (String × V))`; `none` is the nil slice / nil map, which
  Go tells apart from an empty non-nil one.
* Go `int`, `int64` and `time.Duration` are embedded as `Int`; the file does no
  arithmetic on them.
* `interface{}` (the values of the argument maps) and the type `Statement`, which is
  declared in another file of the package, are type parameters.
-/

namespace Neo4j

/-- Run-time failure of a method call: the only failure an accessor of this file can
hit is the dereference of a nil receiver. -/
inductive GoPanic where
  | nilDereference
  deriving DecidableEq, Repr

/-- Go pointer to a read-only value; `none` is nil. -/
abbrev Ptr (α : Type) : Type := Option α

/-- Go slice; `none` is the nil slice, `some xs` a non-nil slice holding `xs`. -/
abbrev Slice (α : Type) : Type := Option (List α)

/-- Go map with string keys; `none` is the nil map, `some kvs` a non-nil map holding
the entries `kvs`. -/
abbrev StringMap (V : Type) : Type := Option (List (String × V))

/-- The elements a `range` loop over the slice yields, in order; none for nil. -/
def Slice.elems {α : Type} : Slice α → List α
  | none => []
  | some xs => xs

/-- Go `len(s)`; 0 for the nil slice. -/
def Slice.len {α : Type} (s : Slice α) : Nat := (Slice.elems s).length

/-- Go `s == nil`. -/
def Slice.isNil {α : Type} : Slice α → Bool
  | none => true
  | some _ => false

/-- Go `m == nil` for a map. -/
def StringMap.isNil {V : Type} : StringMap V → Bool
  | none => true
  | some _ => false

/-- Go `len(m)`; 0 for the nil map. -/
def StringMap.len {V : Type} : StringMap V → Nat
  | none => 0
  | some kvs => kvs.length

/-- The read `p.field` through a pointer: panics on nil. -/
def Ptr.read {α β : Type} (p : Ptr α) (field : α → β) : Except GoPanic β :=
  match p with
  | none => Except.error GoPanic.nilDereference
  | some v => Except.ok (field v)

/-! ## StatementType -/

/-- Go `type StatementType int`. -/
abbrev StatementType : Type := Int

/-- Constant `StatementTypeUnknown StatementType = 0`. -/
def StatementTypeUnknown : StatementType := 0
/-- Constant `StatementTypeReadOnly = 1` (an untyped integer constant). -/
def StatementTypeReadOnly : Int := 1
/-- Constant `StatementTypeReadWrite = 2` (an untyped integer constant). -/
def StatementTypeReadWrite : Int := 2
/-- Constant `StatementTypeWriteOnly = 3` (an untyped integer constant). -/
def StatementTypeWriteOnly : Int := 3
/-- Constant `StatementTypeSchemaWrite = 4` (an untyped integer constant). -/
def StatementTypeSchemaWrite : Int := 4

/-! ## ServerInfo -/

/-- Go `type ServerInfo struct`. -/
structure ServerInfo where
  address : String
  version : String
  deriving DecidableEq, Repr

/-- Method `func (server *ServerInfo) Address() string`. -/
def ServerInfo.Address (server : Ptr ServerInfo) : Except GoPanic String :=
  Ptr.read server (fun s => s.address)

/-- Method `func (server *ServerInfo) Version() string`. -/
def ServerInfo.Version (server : Ptr ServerInfo) : Except GoPanic String :=
  Ptr.read server (fun s => s.version)

/-! ## InputPosition -/

/-- Go `type InputPosition struct`. -/
structure InputPosition where
  offset : Int
  line : Int
  column : Int
  deriving DecidableEq, Repr

/-- Method `func (pos *InputPosition) Offset() int`. -/
def InputPosition.Offset (pos : Ptr InputPosition) : Except GoPanic Int :=
  Ptr.read pos (fun p => p.offset)

/-- Method `func (pos *InputPosition) Line() int`. -/
def InputPosition.Line (pos : Ptr InputPosition) : Except GoPanic Int :=
  Ptr.read pos (fun p => p.line)

/-- Method `func (pos *InputPosition) Column() int`. -/
def InputPosition.Column (pos : Ptr InputPosition) : Except GoPanic Int :=
  Ptr.read pos (fun p => p.column)

/-! ## Notification -/

/-- Go `type Notification struct`; `position` is an `InputPosition` value, not a
pointer. -/
structure Notification where
  code : String
  title : String
  description : String
  position : InputPosition
  severity : String
  deriving DecidableEq, Repr

/-- Method `func (notification *Notification) Code() string`. -/
def Notification.Code (notification : Ptr Notification) : Except GoPanic String :=
  Ptr.read notification (fun n => n.code)

/-- Method `func (notification *Notification) Title() string`. -/
def Notification.Title (notification : Ptr Notification) : Except GoPanic String :=
  Ptr.read notification (fun n => n.title)

/-- Method `func (notification *Notification) Description() string`. -/
def Notification.Description (notification : Ptr Notification) : Except GoPanic String :=
  Ptr.read notification (fun n => n.description)

/-- Method `func (notification *Notification) Position() *InputPosition`, which
returns `&notification.position`: the address of a field, never nil. -/
def Notification.Position (notification : Ptr Notification) :
    Except GoPanic (Ptr InputPosition) :=
  Ptr.read notification (fun n => some n.position)

/-- Method `func (notification *Notification) Severity() string`. -/
def Notification.Severity (notification : Ptr Notification) : Except GoPanic String :=
  Ptr.read notification (fun n => n.severity)

/-! ## Counters -/

/-- Go `type Counters struct`. -/
structure Counters where
  nodesCreated : Int
  nodesDeleted : Int
  relationshipsCreated : Int
  relationshipsDeleted : Int
  propertiesSet : Int
  labelsAdded : Int
  labelsRemoved : Int
  indexesAdded : Int
  indexesRemoved : Int
  constraintsAdded : Int
  constraintsRemoved : Int
  deriving DecidableEq, Repr

/-- Method `func (counters *Counters) NodesCreated() int`. -/
def Counters.NodesCreated (counters : Ptr Counters) : Except GoPanic Int :=
  Ptr.read counters (fun c => c.nodesCreated)

/-- Method `func (counters *Counters) NodesDeleted() int`. -/
def Counters.NodesDeleted (counters : Ptr Counters) : Except GoPanic Int :=
  Ptr.read counters (fun c => c.nodesDeleted)

/-- Method `func (counters *Counters) RelationshipsCreated() int`. -/
def Counters.RelationshipsCreated (counters : Ptr Counters) : Except GoPanic Int :=
  Ptr.read counters (fun c => c.relationshipsCreated)

/-- Method `func (counters *Counters) RelationshipsDeleted() int`. -/
def Counters.RelationshipsDeleted (counters : Ptr Counters) : Except GoPanic Int :=
  Ptr.read counters (fun c => c.relationshipsDeleted)

/-- Method `func (counters *Counters) PropertiesSet() int`. -/
def Counters.PropertiesSet (counters : Ptr Counters) : Except GoPanic Int :=
  Ptr.read counters (fun c => c.propertiesSet)

/-- Method `func (counters *Counters) LabelsAdded() int`. -/
def Counters.LabelsAdded (counters : Ptr Counters) : Except GoPanic Int :=
  Ptr.read counters (fun c => c.labelsAdded)

/-- Method `func (counters *Counters) LabelsRemoved() int`. -/
def Counters.LabelsRemoved (counters : Ptr Counters) : Except GoPanic Int :=
  Ptr.read counters (fun c => c.labelsRemoved)

/-- Method `func (counters *Counters) IndexesAdded() int`. -/
def Counters.IndexesAdded (counters : Ptr Counters) : Except GoPanic Int :=
  Ptr.read counters (fun c => c.indexesAdded)

/-- Method `func (counters *Counters) IndexesRemoved() int`. -/
def Counters.IndexesRemoved (counters : Ptr Counters) : Except GoPanic Int :=
  Ptr.read counters (fun c => c.indexesRemoved)

/-- Method `func (counters *Counters) ConstraintsAdded() int`. -/
def Counters.ConstraintsAdded (counters : Ptr Counters) : Except GoPanic Int :=
  Ptr.read counters (fun c => c.constraintsAdded)

/-- Method `func (counters *Counters) ConstraintsRemoved() int`. -/
def Counters.ConstraintsRemoved (counters : Ptr Counters) : Except GoPanic Int :=
  Ptr.read counters (fun c => c.constraintsRemoved)

/-! ## Plan -/

/-- Go `type Plan struct`; `children []Plan` holds the child nodes by value (the
slice type is written out, `Slice (Plan Value)`). -/
inductive Plan (Value : Type) : Type where
  | mk (operator : String) (arguments : StringMap Value) (identifiers : Slice String)
      (children : Option (List (Plan Value)))

namespace Plan
variable {Value : Type}

/-- Field `operator`. -/
def operator : Plan Value → String
  | mk op _ _ _ => op

/-- Field `arguments`. -/
def arguments : Plan Value → StringMap Value
  | mk _ args _ _ => args

/-- Field `identifiers`. -/
def identifiers : Plan Value → Slice String
  | mk _ _ ids _ => ids

/-- Field `children`. -/
def children : Plan Value → Slice (Plan Value)
  | mk _ _ _ cs => cs

/-- Method `func (plan *Plan) Operator() string`. -/
def Operator (plan : Ptr (Plan Value)) : Except GoPanic String :=
  Ptr.read plan (fun p => p.operator)

/-- Method `func (plan *Plan) Arguments() map[string]interface{}`. -/
def Arguments (plan : Ptr (Plan Value)) : Except GoPanic (StringMap Value) :=
  Ptr.read plan (fun p => p.arguments)

/-- Method `func (plan *Plan) Identifiers() []string`. -/
def Identifiers (plan : Ptr (Plan Value)) : Except GoPanic (Slice String) :=
  Ptr.read plan (fun p => p.identifiers)

/-- Method `func (plan *Plan) Children() []Plan`. -/
def Children (plan : Ptr (Plan Value)) : Except GoPanic (Slice (Plan Value)) :=
  Ptr.read plan (fun p => p.children)

end Plan

/-! ## ProfiledPlan -/

/-- Go `type ProfiledPlan struct` (the type of `children` is
`Slice (ProfiledPlan Value)` written out). -/
inductive ProfiledPlan (Value : Type) : Type where
  | mk (operator : String) (arguments : StringMap Value) (identifiers : Slice String)
      (dbHits : Int) (records : Int) (children : Option (List (ProfiledPlan Value)))

namespace ProfiledPlan
variable {Value : Type}

/-- Field `operator`. -/
def operator : ProfiledPlan Value → String
  | mk op _ _ _ _ _ => op

/-- Field `arguments`. -/
def arguments : ProfiledPlan Value → StringMap Value
  | mk _ args _ _ _ _ => args

/-- Field `identifiers`. -/
def identifiers : ProfiledPlan Value → Slice String
  | mk _ _ ids _ _ _ => ids

/-- Field `dbHits`. -/
def dbHits : ProfiledPlan Value → Int
  | mk _ _ _ d _ _ => d

/-- Field `records`. -/
def records : ProfiledPlan Value → Int
  | mk _ _ _ _ r _ => r

/-- Field `children`. -/
def children : ProfiledPlan Value → Slice (ProfiledPlan Value)
  | mk _ _ _ _ _ cs => cs

/-- Method `func (plan *ProfiledPlan) Operator() string`. -/
def Operator (plan : Ptr (ProfiledPlan Value)) : Except GoPanic String :=
  Ptr.read plan (fun p => p.operator)

/-- Method `func (plan *ProfiledPlan) Arguments() map[string]interface{}`. -/
def Arguments (plan : Ptr (ProfiledPlan Value)) : Except GoPanic (StringMap Value) :=
  Ptr.read plan (fun p => p.arguments)

/-- Method `func (plan *ProfiledPlan) Identifiers() []string`. -/
def Identifiers (plan : Ptr (ProfiledPlan Value)) : Except GoPanic (Slice String) :=
  Ptr.read plan (fun p => p.identifiers)

/-- Method `func (plan *ProfiledPlan) DbHits() int64`. -/
def DbHits (plan : Ptr (ProfiledPlan Value)) : Except GoPanic Int :=
  Ptr.read plan (fun p => p.dbHits)

/-- Method `func (plan *ProfiledPlan) Records() int64`. -/
def Records (plan : Ptr (ProfiledPlan Value)) : Except GoPanic Int :=
  Ptr.read plan (fun p => p.records)

/-- Method `func (plan *ProfiledPlan) Children() []ProfiledPlan`. -/
def Children (plan : Ptr (ProfiledPlan Value)) :
    Except GoPanic (Slice (ProfiledPlan Value)) :=
  Ptr.read plan (fun p => p.children)

end ProfiledPlan

/-! ## ResultSummary -/

/-- Go `type ResultSummary struct`.  `Statement` is the type of the `statement`
field, declared outside this file; `Value` is `interface{}`. -/
structure ResultSummary (Statement Value : Type) where
  server : ServerInfo
  statement : Statement
  statementType : StatementType
  counters : Counters
  plan : Ptr (Plan Value)
  profile : Ptr (ProfiledPlan Value)
  notifications : Slice Notification
  resultAvailableAfter : Int
  resultConsumedAfter : Int

namespace ResultSummary
variable {Stmt Value : Type}

/-- Method `func (summary *ResultSummary) Server() *ServerInfo`, returning
`&summary.server`. -/
def Server (summary : Ptr (ResultSummary Stmt Value)) :
    Except GoPanic (Ptr ServerInfo) :=
  Ptr.read summary (fun s => some s.server)

/-- Method `func (summary *ResultSummary) Statement() *Statement`, returning
`&summary.statement`. -/
def Statement (summary : Ptr (ResultSummary Stmt Value)) :
    Except GoPanic (Ptr Stmt) :=
  Ptr.read summary (fun s => some s.statement)

/-- Method `func (summary *ResultSummary) StatementType() StatementType`. -/
def StatementType (summary : Ptr (ResultSummary Stmt Value)) :
    Except GoPanic Neo4j.StatementType :=
  Ptr.read summary (fun s => s.statementType)

/-- Method `func (summary *ResultSummary) Counters() *Counters`, returning
`&summary.counters`. -/
def Counters (summary : Ptr (ResultSummary Stmt Value)) :
    Except GoPanic (Ptr Neo4j.Counters) :=
  Ptr.read summary (fun s => some s.counters)

/-- Method `func (summary *ResultSummary) Plan() *Plan`. -/
def Plan (summary : Ptr (ResultSummary Stmt Value)) :
    Except GoPanic (Ptr (Neo4j.Plan Value)) :=
  Ptr.read summary (fun s => s.plan)

/-- Method `func (summary *ResultSummary) Profile() *ProfiledPlan`. -/
def Profile (summary : Ptr (ResultSummary Stmt Value)) :
    Except GoPanic (Ptr (ProfiledPlan Value)) :=
  Ptr.read summary (fun s => s.profile)

/-- Method `func (summary *ResultSummary) Notifications() []Notification`. -/
def Notifications (summary : Ptr (ResultSummary Stmt Value)) :
    Except GoPanic (Slice Notification) :=
  Ptr.read summary (fun s => s.notifications)

/-- Method `func (summary *ResultSummary) ResultAvailableAfter() time.Duration`. -/
def ResultAvailableAfter (summary : Ptr (ResultSummary Stmt Value)) :
    Except GoPanic Int :=
  Ptr.read summary (fun s => s.resultAvailableAfter)

/-- Method `func (summary *ResultSummary) ResultConsumedAfter() time.Duration`. -/
def ResultConsumedAfter (summary : Ptr (ResultSummary Stmt Value)) :
    Except GoPanic Int :=
  Ptr.read summary (fun s => s.resultConsumedAfter)

end ResultSummary


/-! ## Specification-level definitions -/

/-- The Go composite literal `Notification{code: .., title: .., description: ..,
severity: ..}` that names no `position`: Go gives the omitted field the zero value of
`InputPosition`, all three components 0. -/
def Notification.literalNoPosition (code title description severity : String) :
    Notification :=
  Notification.mk code title description (InputPosition.mk 0 0 0) severity

/-- The eleven fields of `Counters`. -/
inductive CounterField where
  | nodesCreated
  | nodesDeleted
  | relationshipsCreated
  | relationshipsDeleted
  | propertiesSet
  | labelsAdded
  | labelsRemoved
  | indexesAdded
  | indexesRemoved
  | constraintsAdded
  | constraintsRemoved
  deriving DecidableEq, Repr

/-- The `Counters` value that differs from `c` in the one field `f`, which holds `v`. -/
def Counters.replace (f : CounterField) (v : Int) (c : Counters) : Counters :=
  match f with
  | CounterField.nodesCreated => { c with nodesCreated := v }
  | CounterField.nodesDeleted => { c with nodesDeleted := v }
  | CounterField.relationshipsCreated => { c with relationshipsCreated := v }
  | CounterField.relationshipsDeleted => { c with relationshipsDeleted := v }
  | CounterField.propertiesSet => { c with propertiesSet := v }
  | CounterField.labelsAdded => { c with labelsAdded := v }
  | CounterField.labelsRemoved => { c with labelsRemoved := v }
  | CounterField.indexesAdded => { c with indexesAdded := v }
  | CounterField.indexesRemoved => { c with indexesRemoved := v }
  | CounterField.constraintsAdded => { c with constraintsAdded := v }
  | CounterField.constraintsRemoved => { c with constraintsRemoved := v }

/-- The accessor method named after a field. -/
def Counters.accessor (f : CounterField) : Ptr Counters → Except GoPanic Int :=
  match f with
  | CounterField.nodesCreated => Counters.NodesCreated
  | CounterField.nodesDeleted => Counters.NodesDeleted
  | CounterField.relationshipsCreated => Counters.RelationshipsCreated
  | CounterField.relationshipsDeleted => Counters.RelationshipsDeleted
  | CounterField.propertiesSet => Counters.PropertiesSet
  | CounterField.labelsAdded => Counters.LabelsAdded
  | CounterField.labelsRemoved => Counters.LabelsRemoved
  | CounterField.indexesAdded => Counters.IndexesAdded
  | CounterField.indexesRemoved => Counters.IndexesRemoved
  | CounterField.constraintsAdded => Counters.ConstraintsAdded
  | CounterField.constraintsRemoved => Counters.ConstraintsRemoved

/-- Whether a call returned a value (did not panic). -/
def returns {α : Type} : Except GoPanic α → Bool
  | Except.ok _ => true
  | Except.error _ => false

namespace Plan
variable {Value : Type}

/-- What a traversal step records of one node: the results of `Operator()`,
`Arguments()` and `Identifiers()`. -/
structure Visit (Value : Type) where
  operator : String
  arguments : StringMap Value
  identifiers : Slice String

/-- One traversal step on the node `p`: calls the three accessors on `&p`. -/
def visit (p : Plan Value) : Except GoPanic (Visit Value) := do
  let op ← Operator (some p)
  let args ← Arguments (some p)
  let ids ← Identifiers (some p)
  pure (Visit.mk op args ids)

mutual
/-- Modelled from the spec: the depth-first traversal of a tree, the parent first and
then the subtrees of its children in `Children()` order (`summary.go` declares the
tree and its accessors but no traversal).  The result lists the visited nodes. -/
def traverse : Plan Value → List (Plan Value)
  | mk op args ids cs => mk op args ids cs :: traverseSlice cs
/-- Traversal of the subtrees of a children slice (a nil slice has none). -/
def traverseSlice : Option (List (Plan Value)) → List (Plan Value)
  | none => []
  | some cs => traverseList cs
/-- Traversal of the subtrees of a list of children, in order. -/
def traverseList : List (Plan Value) → List (Plan Value)
  | [] => []
  | c :: cs => traverse c ++ traverseList cs
end

/-- Modelled from the spec: what the traversal yields, the `visit` of every node in
traversal order. -/
def walk (p : Plan Value) : Except GoPanic (List (Visit Value)) :=
  (traverse p).mapM visit

mutual
/-- Number of nodes of the tree: the node itself and the nodes of its subtrees. -/
def numNodes : Plan Value → Nat
  | mk _ _ _ cs => 1 + numNodesSlice cs
/-- Number of nodes below a children slice. -/
def numNodesSlice : Option (List (Plan Value)) → Nat
  | none => 0
  | some cs => numNodesList cs
/-- Number of nodes in a list of subtrees. -/
def numNodesList : List (Plan Value) → Nat
  | [] => 0
  | c :: cs => numNodes c + numNodesList cs
end

/-- The element `p.Children()[i]`, if the index is in range. -/
def childAt (p : Plan Value) (i : Nat) : Option (Plan Value) :=
  match Children (some p) with
  | Except.ok cs => (Slice.elems cs)[i]?
  | Except.error _ => none

/-- The node reached from `p` by following the child indices of a path. -/
def nodeAt : Plan Value → List Nat → Option (Plan Value)
  | p, [] => some p
  | p, i :: path =>
    match childAt p i with
    | none => none
    | some c => nodeAt c path

mutual
/-- The paths of all nodes of the tree, in depth-first order; the root has the empty
path. -/
def positions : Plan Value → List (List Nat)
  | mk _ _ _ cs => [] :: positionsSlice cs
/-- The paths below a children slice. -/
def positionsSlice : Option (List (Plan Value)) → List (List Nat)
  | none => []
  | some cs => positionsList cs 0
/-- The paths below the children `cs`, the first of which has index `i`. -/
def positionsList : List (Plan Value) → Nat → List (List Nat)
  | [], _ => []
  | c :: cs, i => (positions c).map (fun path => i :: path) ++ positionsList cs (i + 1)
end

/-- The root and every descendant reachable through `Children()`. -/
inductive Reachable (root : Plan Value) : Plan Value → Prop where
  | root : Reachable root root
  | child {m c : Plan Value} {cs : Slice (Plan Value)} :
      Reachable root m → Children (some m) = Except.ok cs → c ∈ Slice.elems cs →
      Reachable root c

mutual
/-- Whether every node of the tree was built with a non-nil `arguments` map and a
non-nil `identifiers` slice. -/
def builtNonNil : Plan Value → Bool
  | mk _ args ids cs =>
    !StringMap.isNil args && !Slice.isNil ids && builtNonNilSlice cs
/-- The same for every subtree of a children slice. -/
def builtNonNilSlice : Option (List (Plan Value)) → Bool
  | none => true
  | some cs => builtNonNilList cs
/-- The same for every subtree in a list. -/
def builtNonNilList : List (Plan Value) → Bool
  | [] => true
  | c :: cs => builtNonNil c && builtNonNilList cs
end

end Plan

namespace ProfiledPlan
variable {Value : Type}

/-- What a traversal step records of one node: the results of `Operator()`,
`Arguments()` and `Identifiers()`. -/
structure Visit (Value : Type) where
  operator : String
  arguments : StringMap Value
  identifiers : Slice String

/-- One traversal step on the node `p`: calls the three accessors on `&p`. -/
def visit (p : ProfiledPlan Value) : Except GoPanic (Visit Value) := do
  let op ← Operator (some p)
  let args ← Arguments (some p)
  let ids ← Identifiers (some p)
  pure (Visit.mk op args ids)

mutual
/-- Modelled from the spec: the depth-first traversal of a tree, the parent first and
then the subtrees of its children in `Children()` order (`summary.go` declares the
tree and its accessors but no traversal).  The result lists the visited nodes. -/
def traverse : ProfiledPlan Value → List (ProfiledPlan Value)
  | mk op args ids d r cs => mk op args ids d r cs :: traverseSlice cs
/-- Traversal of the subtrees of a children slice (a nil slice has none). -/
def traverseSlice : Option (List (ProfiledPlan Value)) → List (ProfiledPlan Value)
  | none => []
  | some cs => traverseList cs
/-- Traversal of the subtrees of a list of children, in order. -/
def traverseList : List (ProfiledPlan Value) → List (ProfiledPlan Value)
  | [] => []
  | c :: cs => traverse c ++ traverseList cs
end

/-- Modelled from the spec: what the traversal yields, the `visit` of every node in
traversal order. -/
def walk (p : ProfiledPlan Value) : Except GoPanic (List (Visit Value)) :=
  (traverse p).mapM visit

mutual
/-- Number of nodes of the tree: the node itself and the nodes of its subtrees. -/
def numNodes : ProfiledPlan Value → Nat
  | mk _ _ _ _ _ cs => 1 + numNodesSlice cs
/-- Number of nodes below a children slice. -/
def numNodesSlice : Option (List (ProfiledPlan Value)) → Nat
  | none => 0
  | some cs => numNodesList cs
/-- Number of nodes in a list of subtrees. -/
def numNodesList : List (ProfiledPlan Value) → Nat
  | [] => 0
  | c :: cs => numNodes c + numNodesList cs
end

/-- The element `p.Children()[i]`, if the index is in range. -/
def childAt (p : ProfiledPlan Value) (i : Nat) : Option (ProfiledPlan Value) :=
  match Children (some p) with
  | Except.ok cs => (Slice.elems cs)[i]?
  | Except.error _ => none

/-- The node reached from `p` by following the child indices of a path. -/
def nodeAt : ProfiledPlan Value → List Nat → Option (ProfiledPlan Value)
  | p, [] => some p
  | p, i :: path =>
    match childAt p i with
    | none => none
    | some c => nodeAt c path

mutual
/-- The paths of all nodes of the tree, in depth-first order; the root has the empty
path. -/
def positions : ProfiledPlan Value → List (List Nat)
  | mk _ _ _ _ _ cs => [] :: positionsSlice cs
/-- The paths below a children slice. -/
def positionsSlice : Option (List (ProfiledPlan Value)) → List (List Nat)
  | none => []
  | some cs => positionsList cs 0
/-- The paths below the children `cs`, the first of which has index `i`. -/
def positionsList : List (ProfiledPlan Value) → Nat → List (List Nat)
  | [], _ => []
  | c :: cs, i => (positions c).map (fun path => i :: path) ++ positionsList cs (i + 1)
end

/-- The root and every descendant reachable through `Children()`. -/
inductive Reachable (root : ProfiledPlan Value) : ProfiledPlan Value → Prop where
  | root : Reachable root root
  | child {m c : ProfiledPlan Value} {cs : Slice (ProfiledPlan Value)} :
      Reachable root m → Children (some m) = Except.ok cs → c ∈ Slice.elems cs →
      Reachable root c

mutual
/-- Whether every node of the tree was built with a non-nil `arguments` map and a
non-nil `identifiers` slice. -/
def builtNonNil : ProfiledPlan Value → Bool
  | mk _ args ids _ _ cs =>
    !StringMap.isNil args && !Slice.isNil ids && builtNonNilSlice cs
/-- The same for every subtree of a children slice. -/
def builtNonNilSlice : Option (List (ProfiledPlan Value)) → Bool
  | none => true
  | some cs => builtNonNilList cs
/-- The same for every subtree in a list. -/
def builtNonNilList : List (ProfiledPlan Value) → Bool
  | [] => true
  | c :: cs => builtNonNil c && builtNonNilList cs
end

end ProfiledPlan

/-! ## Accessor calls in state-passing form -/

/-- The zero value of `StatementType`: Go sets a variable or struct field of an
integer type that is given no value to 0. -/
def zeroStatementType : StatementType := 0

/-- The Go statement `return e` as a transformer of the value the receiver points
to: it yields the value of `e` (a field read or the address of a field) and assigns
nothing, so the value is handed on as it is. -/
def returnStmt {α β : Type} (e : α → β) (v : α) : β × α := (e v, v)

/-- Call of a method with the given body through the pointer receiver `p`, in
state-passing form: the result together with the receiver after the call; the
dereference of a nil receiver panics. -/
def Ptr.invoke {α β : Type} (p : Ptr α) (body : α → β × α) :
    Except GoPanic (β × Ptr α) :=
  match p with
  | none => Except.error GoPanic.nilDereference
  | some v => Except.ok ((body v).1, some (body v).2)

/-- An accessor method of the receiver type `α`: its result type, the accessor as a
function of the receiver (`read`), and the accessor in state-passing form, the body
of the Go method run on the receiver (`call`). -/
structure Method (α : Type) where
  Result : Type
  read : Ptr α → Except GoPanic Result
  call : Ptr α → Except GoPanic (Result × Ptr α)

/-- A sequence of accessor calls on one receiver, each run on the receiver the call
before left; the results are dropped and the receiver after the last call is
returned. -/
def runCalls {α : Type} : List (Method α) → Ptr α → Except GoPanic (Ptr α)
  | [], p => Except.ok p
  | m :: ms, p =>
    match m.call p with
    | Except.error e => Except.error e
    | Except.ok (_, q) => runCalls ms q

/-- The accessors of the list are pure reads: a call on a non-nil receiver returns
what the accessor reads and leaves the receiver with every field as it was; hence
after any sequence of calls of accessors of the list the receiver is unchanged, and
every accessor of the list, called after the sequence, does and returns what it does
and returns when called before it. -/
def PureReads {α : Type} (methods : List (Method α)) : Prop :=
  (∀ m ∈ methods, ∀ v : α,
    ∃ r, m.call (some v) = Except.ok (r, some v) ∧ m.read (some v) = Except.ok r)
  ∧ (∀ ms : List (Method α), (∀ m ∈ ms, m ∈ methods) → ∀ v : α,
    runCalls ms (some v) = Except.ok (some v)
    ∧ ∀ m ∈ methods,
      (runCalls ms (some v) >>= m.call) = m.call (some v)
      ∧ (runCalls ms (some v) >>= m.read) = m.read (some v))

/-- The accessor methods of `ServerInfo`, each with the state-passing form of its body. -/
def serverInfoMethods : List (Method (ServerInfo)) :=
  [ Method.mk String ServerInfo.Address
      (fun p => Ptr.invoke p (returnStmt (fun s => s.address))),
    Method.mk String ServerInfo.Version
      (fun p => Ptr.invoke p (returnStmt (fun s => s.version))) ]

/-- The accessor methods of `InputPosition`, each with the state-passing form of its body. -/
def inputPositionMethods : List (Method (InputPosition)) :=
  [ Method.mk Int InputPosition.Offset
      (fun p => Ptr.invoke p (returnStmt (fun s => s.offset))),
    Method.mk Int InputPosition.Line
      (fun p => Ptr.invoke p (returnStmt (fun s => s.line))),
    Method.mk Int InputPosition.Column
      (fun p => Ptr.invoke p (returnStmt (fun s => s.column))) ]

/-- The accessor methods of `Notification`, each with the state-passing form of its body. -/
def notificationMethods : List (Method (Notification)) :=
  [ Method.mk String Notification.Code
      (fun p => Ptr.invoke p (returnStmt (fun s => s.code))),
    Method.mk String Notification.Title
      (fun p => Ptr.invoke p (returnStmt (fun s => s.title))),
    Method.mk String Notification.Description
      (fun p => Ptr.invoke p (returnStmt (fun s => s.description))),
    Method.mk (Ptr InputPosition) Notification.Position
      (fun p => Ptr.invoke p (returnStmt (fun s => some s.position))),
    Method.mk String Notification.Severity
      (fun p => Ptr.invoke p (returnStmt (fun s => s.severity))) ]

/-- The accessor methods of `Counters`, each with the state-passing form of its body. -/
def countersMethods : List (Method (Counters)) :=
  [ Method.mk Int Counters.NodesCreated
      (fun p => Ptr.invoke p (returnStmt (fun s => s.nodesCreated))),
    Method.mk Int Counters.NodesDeleted
      (fun p => Ptr.invoke p (returnStmt (fun s => s.nodesDeleted))),
    Method.mk Int Counters.RelationshipsCreated
      (fun p => Ptr.invoke p (returnStmt (fun s => s.relationshipsCreated))),
    Method.mk Int Counters.RelationshipsDeleted
      (fun p => Ptr.invoke p (returnStmt (fun s => s.relationshipsDeleted))),
    Method.mk Int Counters.PropertiesSet
      (fun p => Ptr.invoke p (returnStmt (fun s => s.propertiesSet))),
    Method.mk Int Counters.LabelsAdded
      (fun p => Ptr.invoke p (returnStmt (fun s => s.labelsAdded))),
    Method.mk Int Counters.LabelsRemoved
      (fun p => Ptr.invoke p (returnStmt (fun s => s.labelsRemoved))),
    Method.mk Int Counters.IndexesAdded
      (fun p => Ptr.invoke p (returnStmt (fun s => s.indexesAdded))),
    Method.mk Int Counters.IndexesRemoved
      (fun p => Ptr.invoke p (returnStmt (fun s => s.indexesRemoved))),
    Method.mk Int Counters.ConstraintsAdded
      (fun p => Ptr.invoke p (returnStmt (fun s => s.constraintsAdded))),
    Method.mk Int Counters.ConstraintsRemoved
      (fun p => Ptr.invoke p (returnStmt (fun s => s.constraintsRemoved))) ]

/-- The accessor methods of `Plan`, each with the state-passing form of its body. -/
def planMethods (Value : Type) : List (Method (Plan Value)) :=
  [ Method.mk String Plan.Operator
      (fun p => Ptr.invoke p (returnStmt (fun s => s.operator))),
    Method.mk (StringMap Value) Plan.Arguments
      (fun p => Ptr.invoke p (returnStmt (fun s => s.arguments))),
    Method.mk (Slice String) Plan.Identifiers
      (fun p => Ptr.invoke p (returnStmt (fun s => s.identifiers))),
    Method.mk (Slice (Plan Value)) Plan.Children
      (fun p => Ptr.invoke p (returnStmt (fun s => s.children))) ]

/-- The accessor methods of `ProfiledPlan`, each with the state-passing form of its body. -/
def profiledPlanMethods (Value : Type) : List (Method (ProfiledPlan Value)) :=
  [ Method.mk String ProfiledPlan.Operator
      (fun p => Ptr.invoke p (returnStmt (fun s => s.operator))),
    Method.mk (StringMap Value) ProfiledPlan.Arguments
      (fun p => Ptr.invoke p (returnStmt (fun s => s.arguments))),
    Method.mk (Slice String) ProfiledPlan.Identifiers
      (fun p => Ptr.invoke p (returnStmt (fun s => s.identifiers))),
    Method.mk Int ProfiledPlan.DbHits
      (fun p => Ptr.invoke p (returnStmt (fun s => s.dbHits))),
    Method.mk Int ProfiledPlan.Records
      (fun p => Ptr.invoke p (returnStmt (fun s => s.records))),
    Method.mk (Slice (ProfiledPlan Value)) ProfiledPlan.Children
      (fun p => Ptr.invoke p (returnStmt (fun s => s.children))) ]

/-- The accessor methods of `ResultSummary`, each with the state-passing form of its body. -/
def resultSummaryMethods (Stmt Value : Type) : List (Method (ResultSummary Stmt Value)) :=
  [ Method.mk (Ptr ServerInfo) ResultSummary.Server
      (fun p => Ptr.invoke p (returnStmt (fun s => some s.server))),
    Method.mk (Ptr Stmt) ResultSummary.Statement
      (fun p => Ptr.invoke p (returnStmt (fun s => some s.statement))),
    Method.mk StatementType ResultSummary.StatementType
      (fun p => Ptr.invoke p (returnStmt (fun s => s.statementType))),
    Method.mk (Ptr Counters) ResultSummary.Counters
      (fun p => Ptr.invoke p (returnStmt (fun s => some s.counters))),
    Method.mk (Ptr (Plan Value)) ResultSummary.Plan
      (fun p => Ptr.invoke p (returnStmt (fun s => s.plan))),
    Method.mk (Ptr (ProfiledPlan Value)) ResultSummary.Profile
      (fun p => Ptr.invoke p (returnStmt (fun s => s.profile))),
    Method.mk (Slice Notification) ResultSummary.Notifications
      (fun p => Ptr.invoke p (returnStmt (fun s => s.notifications))),
    Method.mk Int ResultSummary.ResultAvailableAfter
      (fun p => Ptr.invoke p (returnStmt (fun s => s.resultAvailableAfter))),
    Method.mk Int ResultSummary.ResultConsumedAfter
      (fun p => Ptr.invoke p (returnStmt (fun s => s.resultConsumedAfter))) ]

/-! ## Theorems -/


/-- Claim C1: for a ResultSummary built from a server (address, version), a statement
type, counters and the two durations, `Server()`, `StatementType()`, `Counters()`,
`ResultAvailableAfter()` and `ResultConsumedAfter()` each return the value supplied
for their own field, and `Server().Address()` / `Server().Version()` return the
supplied address / version. -/
theorem ResultSummary.mandatory_accessors_roundtrip {Stmt Value : Type}
    (address version : String) (statement : Stmt) (statementType : Neo4j.StatementType)
    (counters : Neo4j.Counters) (plan : Ptr (Neo4j.Plan Value))
    (profile : Ptr (ProfiledPlan Value)) (notifications : Slice Notification)
    (resultAvailableAfter resultConsumedAfter : Int) :
    ResultSummary.Server (some (ResultSummary.mk (ServerInfo.mk address version)
        statement statementType counters plan profile notifications
        resultAvailableAfter resultConsumedAfter))
      = Except.ok (some (ServerInfo.mk address version))
    ∧ (ResultSummary.Server (some (ResultSummary.mk (ServerInfo.mk address version)
        statement statementType counters plan profile notifications
        resultAvailableAfter resultConsumedAfter)) >>= ServerInfo.Address)
      = Except.ok address
    ∧ (ResultSummary.Server (some (ResultSummary.mk (ServerInfo.mk address version)
        statement statementType counters plan profile notifications
        resultAvailableAfter resultConsumedAfter)) >>= ServerInfo.Version)
      = Except.ok version
    ∧ ResultSummary.StatementType (some (ResultSummary.mk (ServerInfo.mk address version)
        statement statementType counters plan profile notifications
        resultAvailableAfter resultConsumedAfter))
      = Except.ok statementType
    ∧ ResultSummary.Counters (some (ResultSummary.mk (ServerInfo.mk address version)
        statement statementType counters plan profile notifications
        resultAvailableAfter resultConsumedAfter))
      = Except.ok (some counters)
    ∧ ResultSummary.ResultAvailableAfter (some (ResultSummary.mk
        (ServerInfo.mk address version) statement statementType counters plan profile
        notifications resultAvailableAfter resultConsumedAfter))
      = Except.ok resultAvailableAfter
    ∧ ResultSummary.ResultConsumedAfter (some (ResultSummary.mk
        (ServerInfo.mk address version) statement statementType counters plan profile
        notifications resultAvailableAfter resultConsumedAfter))
      = Except.ok resultConsumedAfter :=
  ⟨rfl, rfl, rfl, rfl, rfl, rfl, rfl⟩

/-- Claim C2: `Plan()` reports absent (nil) exactly when the summary was built with no
plan and `Profile()` reports absent exactly when it was built with no profile; the
two are independent: every one of the four presence/absence combinations is reported
by some summary; and a supplied plan with empty operator, empty arguments, no
identifiers and no children is reported as present. -/
theorem ResultSummary.plan_profile_absent_iff {Stmt Value : Type}
    (server : ServerInfo) (statement : Stmt) (statementType : Neo4j.StatementType)
    (counters : Neo4j.Counters) (notifications : Slice Notification)
    (resultAvailableAfter resultConsumedAfter : Int) :
    (∀ (plan : Ptr (Neo4j.Plan Value)) (profile : Ptr (ProfiledPlan Value)),
      (ResultSummary.Plan (some (ResultSummary.mk server statement statementType counters
          plan profile notifications resultAvailableAfter resultConsumedAfter))
        = Except.ok none ↔ plan = none)
      ∧ (ResultSummary.Profile (some (ResultSummary.mk server statement statementType
          counters plan profile notifications resultAvailableAfter resultConsumedAfter))
        = Except.ok none ↔ profile = none))
    ∧ (∀ planAbsent profileAbsent : Bool, ∃ s : ResultSummary Stmt Value,
      (ResultSummary.Plan (some s) = Except.ok none ↔ planAbsent = true)
      ∧ (ResultSummary.Profile (some s) = Except.ok none ↔ profileAbsent = true))
    ∧ (∀ profile : Ptr (ProfiledPlan Value),
      ResultSummary.Plan (some (ResultSummary.mk server statement statementType counters
          (some (Neo4j.Plan.mk "" (some []) none none)) profile notifications
          resultAvailableAfter resultConsumedAfter))
        = Except.ok (some (Neo4j.Plan.mk "" (some []) none none))
      ∧ ResultSummary.Plan (some (ResultSummary.mk server statement statementType counters
          (some (Neo4j.Plan.mk "" (some []) none none)) profile notifications
          resultAvailableAfter resultConsumedAfter))
        ≠ Except.ok none) := by
  refine ⟨?_, ?_, ?_⟩
  · intro plan profile
    simp [ResultSummary.Plan, ResultSummary.Profile, Ptr.read]
  · intro planAbsent profileAbsent
    refine ⟨ResultSummary.mk server statement statementType counters
      (if planAbsent then none else some (Neo4j.Plan.mk "" none none none))
      (if profileAbsent then none else some (ProfiledPlan.mk "" none none 0 0 none))
      notifications resultAvailableAfter resultConsumedAfter, ?_, ?_⟩
    · cases planAbsent <;> simp [ResultSummary.Plan, Ptr.read]
    · cases profileAbsent <;> simp [ResultSummary.Profile, Ptr.read]
  · intro profile
    simp [ResultSummary.Plan, Ptr.read]

/-! ### Lemmas on Plan trees -/

namespace Plan
variable {Value : Type}

/-- Induction over a tree: a property holds of every node when it holds of a node
whose children all have it. -/
theorem induct {P : Plan Value → Prop}
    (h : ∀ op args ids cs, (∀ c ∈ Slice.elems cs, P c) → P (mk op args ids cs))
    (p : Plan Value) : P p :=
  @Plan.rec Value P (fun o => ∀ c ∈ Slice.elems o, P c) (fun l => ∀ c ∈ l, P c)
    (fun op args ids cs ih => h op args ids cs ih)
    (fun c hc => by simp [Slice.elems] at hc)
    (fun l ih => by simpa [Slice.elems] using ih)
    (fun c hc => by simp at hc)
    (fun head tail ih1 ih2 c hc => by
      rcases List.mem_cons.mp hc with rfl | hc
      · exact ih1
      · exact ih2 c hc)
    p

theorem traverseList_eq (cs : List (Plan Value)) :
    traverseList cs = cs.flatMap traverse := by
  induction cs with
  | nil => simp [traverseList]
  | cons c cs ih => simp [traverseList, ih]

theorem traverseSlice_eq (cs : Slice (Plan Value)) :
    traverseSlice cs = (Slice.elems cs).flatMap traverse := by
  cases cs with
  | none => simp [traverseSlice, Slice.elems]
  | some l => simp [traverseSlice, Slice.elems, traverseList_eq]

theorem traverse_eq_of_children (p : Plan Value) (cs : Slice (Plan Value))
    (h : Children (some p) = Except.ok cs) :
    traverse p = p :: (Slice.elems cs).flatMap traverse := by
  cases p with
  | mk op args ids kids =>
    have hk : kids = cs := by
      simpa [Children, Ptr.read, children] using h
    subst hk
    simp [traverse, traverseSlice_eq]

theorem length_traverseList (cs : List (Plan Value))
    (h : ∀ c ∈ cs, (traverse c).length = numNodes c) :
    (traverseList cs).length = numNodesList cs := by
  induction cs with
  | nil => simp [traverseList, numNodesList]
  | cons c cs ih =>
    have h1 := h c (List.mem_cons_self c cs)
    have h2 := ih (fun e he => h e (List.mem_cons_of_mem c he))
    simp [traverseList, numNodesList, h1, h2]

theorem length_traverse (p : Plan Value) : (traverse p).length = numNodes p := by
  induction p using induct with
  | h op args ids cs ih =>
    cases cs with
    | none => simp [traverse, traverseSlice, numNodes, numNodesSlice]
    | some l =>
      have := length_traverseList l (by simpa [Slice.elems] using ih)
      simp [traverse, traverseSlice, numNodes, numNodesSlice, this]
      omega

theorem visit_eq (p : Plan Value) :
    visit p = Except.ok (Visit.mk p.operator p.arguments p.identifiers) := rfl

theorem mapM_visit (l : List (Plan Value)) :
    l.mapM visit
      = Except.ok (l.map (fun n => Visit.mk n.operator n.arguments n.identifiers)) := by
  induction l with
  | nil => rfl
  | cons n l ih =>
    rw [List.mapM_cons, ih, visit_eq]
    rfl

theorem walk_eq (p : Plan Value) :
    walk p = Except.ok
      ((traverse p).map (fun n => Visit.mk n.operator n.arguments n.identifiers)) :=
  mapM_visit (traverse p)

theorem nodeAt_cons (op : String) (args : StringMap Value) (ids : Slice String)
    (cs : Slice (Plan Value)) (i : Nat) (path : List Nat) :
    nodeAt (mk op args ids cs) (i :: path)
      = ((Slice.elems cs)[i]?).bind (fun c => nodeAt c path) := by
  simp only [nodeAt, childAt, Children, Ptr.read, children]
  cases (Slice.elems cs)[i]? <;> rfl

theorem mem_positionsList (cs : List (Plan Value)) (i : Nat) (path : List Nat) :
    path ∈ positionsList cs i
      ↔ ∃ k c rest, cs[k]? = some c ∧ rest ∈ positions c ∧ path = (i + k) :: rest := by
  induction cs generalizing i with
  | nil => simp [positionsList]
  | cons c cs ih =>
    simp only [positionsList, List.mem_append, List.mem_map, ih]
    constructor
    · rintro (⟨rest, hrest, rfl⟩ | ⟨k, e, rest, hk, hrest, rfl⟩)
      · exact ⟨0, c, rest, by simp, hrest, by simp⟩
      · exact ⟨k + 1, e, rest, by simpa using hk, hrest, by
          rw [Nat.add_assoc, Nat.add_comm 1 k]⟩
    · rintro ⟨k, e, rest, hk, hrest, rfl⟩
      cases k with
      | zero =>
        left
        simp at hk
        subst hk
        exact ⟨rest, hrest, by simp⟩
      | succ k =>
        right
        exact ⟨k, e, rest, by simpa using hk, hrest, by
          rw [Nat.add_assoc, Nat.add_comm 1 k]⟩

theorem mem_positions_iff (p : Plan Value) :
    ∀ path, path ∈ positions p ↔ (nodeAt p path).isSome = true := by
  induction p using induct with
  | h op args ids cs ih =>
    intro path
    cases path with
    | nil => simp [positions, nodeAt]
    | cons j rest =>
      rw [nodeAt_cons]
      cases cs with
      | none => simp [positions, positionsSlice, Slice.elems]
      | some l =>
        simp only [positions, positionsSlice, Slice.elems, List.mem_cons,
          mem_positionsList, Nat.zero_add, List.cons.injEq, false_or, reduceCtorEq]
        constructor
        · rintro ⟨k, c, q, hk, hr, hj, hrest⟩
          subst hj
          subst hrest
          have hc : c ∈ l := List.getElem?_mem hk
          simpa [hk] using (ih c (by simpa [Slice.elems] using hc) _).mp hr
        · intro h
          cases hk : l[j]? with
          | none => simp [hk] at h
          | some c =>
            have hc : c ∈ l := List.getElem?_mem hk
            refine ⟨j, c, rest, hk, ?_, rfl, rfl⟩
            exact (ih c (by simpa [Slice.elems] using hc) rest).mpr (by simpa [hk] using h)

theorem nodup_positionsList (cs : List (Plan Value))
    (h : ∀ c ∈ cs, (positions c).Nodup) (i : Nat) : (positionsList cs i).Nodup := by
  induction cs generalizing i with
  | nil => simp [positionsList]
  | cons c cs ih =>
    simp only [positionsList]
    refine List.nodup_append.mpr ⟨?_, ?_, ?_⟩
    · exact List.Nodup.map (fun a b hab => (List.cons.inj hab).2)
        (h c (List.mem_cons_self c cs))
    · exact ih (fun e he => h e (List.mem_cons_of_mem c he)) (i + 1)
    · intro path h1 h2
      obtain ⟨q, _, rfl⟩ := List.mem_map.mp h1
      obtain ⟨k, e, q2, _, _, heq⟩ := (mem_positionsList cs (i + 1) _).mp h2
      have := (List.cons.inj heq).1
      omega

theorem nodup_positions (p : Plan Value) : (positions p).Nodup := by
  induction p using induct with
  | h op args ids cs ih =>
    cases cs with
    | none => simp [positions, positionsSlice]
    | some l =>
      simp only [positions, positionsSlice]
      refine List.nodup_cons.mpr ⟨?_, nodup_positionsList l (by simpa [Slice.elems] using ih) 0⟩
      intro h
      obtain ⟨k, e, q, _, _, heq⟩ := (mem_positionsList l 0 _).mp h
      cases heq

theorem map_nodeAt_positionsList (op : String) (args : StringMap Value)
    (ids : Slice String) (pre cs : List (Plan Value))
    (h : ∀ c ∈ cs, (positions c).map (nodeAt c) = (traverse c).map some) :
    (positionsList cs pre.length).map (nodeAt (mk op args ids (some (pre ++ cs))))
      = (traverseList cs).map some := by
  induction cs generalizing pre with
  | nil => simp [positionsList, traverseList]
  | cons c cs ih =>
    have h1 := h c (List.mem_cons_self c cs)
    have h2 := ih (pre ++ [c]) (fun e he => h e (List.mem_cons_of_mem c he))
    simp only [List.length_append, List.length_singleton, List.append_assoc,
      List.singleton_append] at h2
    simp only [positionsList, traverseList, List.map_append, List.map_map, h2, ← h1]
    congr 1
    apply List.map_congr_left
    intro path _
    have hget : (pre ++ c :: cs)[pre.length]? = some c := by
      rw [List.getElem?_append_right (Nat.le_refl _)]
      simp
    show nodeAt (mk op args ids (some (pre ++ c :: cs))) (pre.length :: path) = nodeAt c path
    rw [nodeAt_cons]
    simp only [Slice.elems]
    rw [hget]
    rfl

theorem map_nodeAt_positions (p : Plan Value) :
    (positions p).map (nodeAt p) = (traverse p).map some := by
  induction p using induct with
  | h op args ids cs ih =>
    cases cs with
    | none => simp [positions, positionsSlice, traverse, traverseSlice, nodeAt]
    | some l =>
      have := map_nodeAt_positionsList op args ids [] l (by simpa [Slice.elems] using ih)
      simp only [List.length_nil, List.nil_append] at this
      simp [positions, positionsSlice, traverse, traverseSlice, nodeAt, this]

theorem reachable_trans {a b c : Plan Value} (hab : Reachable a b) (hbc : Reachable b c) :
    Reachable a c := by
  induction hbc with
  | root => exact hab
  | child _ hcs hmem ih => exact Reachable.child ih hcs hmem

theorem reachable_of_mem_children (op : String) (args : StringMap Value)
    (ids : Slice String) (cs : Slice (Plan Value)) (c : Plan Value)
    (hc : c ∈ Slice.elems cs) : Reachable (mk op args ids cs) c :=
  Reachable.child Reachable.root rfl hc

theorem builtNonNilList_iff (cs : List (Plan Value)) :
    builtNonNilList cs = true ↔ ∀ c ∈ cs, builtNonNil c = true := by
  induction cs with
  | nil => simp [builtNonNilList]
  | cons c cs ih => simp [builtNonNilList, ih]

theorem builtNonNil_iff (op : String) (args : StringMap Value) (ids : Slice String)
    (cs : Slice (Plan Value)) :
    builtNonNil (mk op args ids cs) = true
      ↔ StringMap.isNil args = false ∧ Slice.isNil ids = false
        ∧ ∀ c ∈ Slice.elems cs, builtNonNil c = true := by
  cases cs with
  | none => simp [builtNonNil, builtNonNilSlice, Slice.elems]
  | some l => simp [builtNonNil, builtNonNilSlice, Slice.elems, builtNonNilList_iff, and_assoc]

theorem builtNonNil_of_reachable {root n : Plan Value} (h : builtNonNil root = true)
    (hr : Reachable root n) : builtNonNil n = true := by
  induction hr with
  | root => exact h
  | @child m c cs _ hcs hmem ih =>
    cases m with
    | mk op args ids kids =>
      have hk : kids = cs := by
        simpa [Children, Ptr.read, children] using hcs
      subst hk
      exact ((builtNonNil_iff op args ids kids).mp ih).2.2 c hmem

theorem builtNonNil_of_forall_reachable (root : Plan Value)
    (h : ∀ n, Reachable root n →
      StringMap.isNil n.arguments = false ∧ Slice.isNil n.identifiers = false) :
    builtNonNil root = true := by
  induction root using induct with
  | h op args ids cs ih =>
    refine (builtNonNil_iff op args ids cs).mpr ⟨?_, ?_, ?_⟩
    · exact (h _ Reachable.root).1
    · exact (h _ Reachable.root).2
    · intro c hc
      exact ih c hc (fun n hn =>
        h n (reachable_trans (reachable_of_mem_children op args ids cs c hc) hn))

theorem builtNonNil_iff_reachable (root : Plan Value) :
    builtNonNil root = true
      ↔ ∀ n, Reachable root n →
        ∃ args ids, Arguments (some n) = Except.ok (some args)
          ∧ Identifiers (some n) = Except.ok (some ids) := by
  constructor
  · intro h n hn
    have hb := builtNonNil_of_reachable h hn
    cases n with
    | mk op args ids cs =>
      have := (builtNonNil_iff op args ids cs).mp hb
      cases args with
      | none => simp [StringMap.isNil] at this
      | some a =>
        cases ids with
        | none => simp [Slice.isNil] at this
        | some i => exact ⟨a, i, rfl, rfl⟩
  · intro h
    apply builtNonNil_of_forall_reachable
    intro n hn
    obtain ⟨a, i, ha, hi⟩ := h n hn
    cases n with
    | mk op args ids cs =>
      have ha2 : args = some a := by
        simpa [Arguments, Ptr.read, arguments] using ha
      have hi2 : ids = some i := by
        simpa [Identifiers, Ptr.read, identifiers] using hi
      subst ha2
      subst hi2
      exact ⟨rfl, rfl⟩

end Plan

/-! ### Lemmas on ProfiledPlan trees -/

namespace ProfiledPlan
variable {Value : Type}

/-- Induction over a tree: a property holds of every node when it holds of a node
whose children all have it. -/
theorem profiled_induct {P : ProfiledPlan Value → Prop}
    (h : ∀ op args ids d r cs, (∀ c ∈ Slice.elems cs, P c) → P (mk op args ids d r cs))
    (p : ProfiledPlan Value) : P p :=
  @ProfiledPlan.rec Value P (fun o => ∀ c ∈ Slice.elems o, P c) (fun l => ∀ c ∈ l, P c)
    (fun op args ids d r cs ih => h op args ids d r cs ih)
    (fun c hc => by simp [Slice.elems] at hc)
    (fun l ih => by simpa [Slice.elems] using ih)
    (fun c hc => by simp at hc)
    (fun head tail ih1 ih2 c hc => by
      rcases List.mem_cons.mp hc with rfl | hc
      · exact ih1
      · exact ih2 c hc)
    p

theorem profiled_traverseList_eq (cs : List (ProfiledPlan Value)) :
    traverseList cs = cs.flatMap traverse := by
  induction cs with
  | nil => simp [traverseList]
  | cons c cs ih => simp [traverseList, ih]

theorem profiled_traverseSlice_eq (cs : Slice (ProfiledPlan Value)) :
    traverseSlice cs = (Slice.elems cs).flatMap traverse := by
  cases cs with
  | none => simp [traverseSlice, Slice.elems]
  | some l => simp [traverseSlice, Slice.elems, profiled_traverseList_eq]

theorem profiled_traverse_eq_of_children (p : ProfiledPlan Value) (cs : Slice (ProfiledPlan Value))
    (h : Children (some p) = Except.ok cs) :
    traverse p = p :: (Slice.elems cs).flatMap traverse := by
  cases p with
  | mk op args ids d r kids =>
    have hk : kids = cs := by
      simpa [Children, Ptr.read, children] using h
    subst hk
    simp [traverse, profiled_traverseSlice_eq]

theorem profiled_length_traverseList (cs : List (ProfiledPlan Value))
    (h : ∀ c ∈ cs, (traverse c).length = numNodes c) :
    (traverseList cs).length = numNodesList cs := by
  induction cs with
  | nil => simp [traverseList, numNodesList]
  | cons c cs ih =>
    have h1 := h c (List.mem_cons_self c cs)
    have h2 := ih (fun e he => h e (List.mem_cons_of_mem c he))
    simp [traverseList, numNodesList, h1, h2]

theorem profiled_length_traverse (p : ProfiledPlan Value) : (traverse p).length = numNodes p := by
  induction p using profiled_induct with
  | h op args ids d r cs ih =>
    cases cs with
    | none => simp [traverse, traverseSlice, numNodes, numNodesSlice]
    | some l =>
      have := profiled_length_traverseList l (by simpa [Slice.elems] using ih)
      simp [traverse, traverseSlice, numNodes, numNodesSlice, this]
      omega

theorem profiled_visit_eq (p : ProfiledPlan Value) :
    visit p = Except.ok (Visit.mk p.operator p.arguments p.identifiers) := rfl

theorem profiled_mapM_visit (l : List (ProfiledPlan Value)) :
    l.mapM visit
      = Except.ok (l.map (fun n => Visit.mk n.operator n.arguments n.identifiers)) := by
  induction l with
  | nil => rfl
  | cons n l ih =>
    rw [List.mapM_cons, ih, profiled_visit_eq]
    rfl

theorem profiled_walk_eq (p : ProfiledPlan Value) :
    walk p = Except.ok
      ((traverse p).map (fun n => Visit.mk n.operator n.arguments n.identifiers)) :=
  profiled_mapM_visit (traverse p)

theorem profiled_nodeAt_cons (op : String) (args : StringMap Value) (ids : Slice String)
    (d r : Int) (cs : Slice (ProfiledPlan Value)) (i : Nat) (path : List Nat) :
    nodeAt (mk op args ids d r cs) (i :: path)
      = ((Slice.elems cs)[i]?).bind (fun c => nodeAt c path) := by
  simp only [nodeAt, childAt, Children, Ptr.read, children]
  cases (Slice.elems cs)[i]? <;> rfl

theorem profiled_mem_positionsList (cs : List (ProfiledPlan Value)) (i : Nat) (path : List Nat) :
    path ∈ positionsList cs i
      ↔ ∃ k c rest, cs[k]? = some c ∧ rest ∈ positions c ∧ path = (i + k) :: rest := by
  induction cs generalizing i with
  | nil => simp [positionsList]
  | cons c cs ih =>
    simp only [positionsList, List.mem_append, List.mem_map, ih]
    constructor
    · rintro (⟨rest, hrest, rfl⟩ | ⟨k, e, rest, hk, hrest, rfl⟩)
      · exact ⟨0, c, rest, by simp, hrest, by simp⟩
      · exact ⟨k + 1, e, rest, by simpa using hk, hrest, by
          rw [Nat.add_assoc, Nat.add_comm 1 k]⟩
    · rintro ⟨k, e, rest, hk, hrest, rfl⟩
      cases k with
      | zero =>
        left
        simp at hk
        subst hk
        exact ⟨rest, hrest, by simp⟩
      | succ k =>
        right
        exact ⟨k, e, rest, by simpa using hk, hrest, by
          rw [Nat.add_assoc, Nat.add_comm 1 k]⟩

theorem profiled_mem_positions_iff (p : ProfiledPlan Value) :
    ∀ path, path ∈ positions p ↔ (nodeAt p path).isSome = true := by
  induction p using profiled_induct with
  | h op args ids d r cs ih =>
    intro path
    cases path with
    | nil => simp [positions, nodeAt]
    | cons j rest =>
      rw [profiled_nodeAt_cons]
      cases cs with
      | none => simp [positions, positionsSlice, Slice.elems]
      | some l =>
        simp only [positions, positionsSlice, Slice.elems, List.mem_cons,
          profiled_mem_positionsList, Nat.zero_add, List.cons.injEq, false_or, reduceCtorEq]
        constructor
        · rintro ⟨k, c, q, hk, hr, hj, hrest⟩
          subst hj
          subst hrest
          have hc : c ∈ l := List.getElem?_mem hk
          simpa [hk] using (ih c (by simpa [Slice.elems] using hc) _).mp hr
        · intro h
          cases hk : l[j]? with
          | none => simp [hk] at h
          | some c =>
            have hc : c ∈ l := List.getElem?_mem hk
            refine ⟨j, c, rest, hk, ?_, rfl, rfl⟩
            exact (ih c (by simpa [Slice.elems] using hc) rest).mpr (by simpa [hk] using h)

theorem profiled_nodup_positionsList (cs : List (ProfiledPlan Value))
    (h : ∀ c ∈ cs, (positions c).Nodup) (i : Nat) : (positionsList cs i).Nodup := by
  induction cs generalizing i with
  | nil => simp [positionsList]
  | cons c cs ih =>
    simp only [positionsList]
    refine List.nodup_append.mpr ⟨?_, ?_, ?_⟩
    · exact List.Nodup.map (fun a b hab => (List.cons.inj hab).2)
        (h c (List.mem_cons_self c cs))
    · exact ih (fun e he => h e (List.mem_cons_of_mem c he)) (i + 1)
    · intro path h1 h2
      obtain ⟨q, _, rfl⟩ := List.mem_map.mp h1
      obtain ⟨k, e, q2, _, _, heq⟩ := (profiled_mem_positionsList cs (i + 1) _).mp h2
      have := (List.cons.inj heq).1
      omega

theorem profiled_nodup_positions (p : ProfiledPlan Value) : (positions p).Nodup := by
  induction p using profiled_induct with
  | h op args ids d r cs ih =>
    cases cs with
    | none => simp [positions, positionsSlice]
    | some l =>
      simp only [positions, positionsSlice]
      refine List.nodup_cons.mpr ⟨?_, profiled_nodup_positionsList l (by simpa [Slice.elems] using ih) 0⟩
      intro h
      obtain ⟨k, e, q, _, _, heq⟩ := (profiled_mem_positionsList l 0 _).mp h
      cases heq

theorem profiled_map_nodeAt_positionsList (op : String) (args : StringMap Value)
    (ids : Slice String) (d r : Int) (pre cs : List (ProfiledPlan Value))
    (h : ∀ c ∈ cs, (positions c).map (nodeAt c) = (traverse c).map some) :
    (positionsList cs pre.length).map (nodeAt (mk op args ids d r (some (pre ++ cs))))
      = (traverseList cs).map some := by
  induction cs generalizing pre with
  | nil => simp [positionsList, traverseList]
  | cons c cs ih =>
    have h1 := h c (List.mem_cons_self c cs)
    have h2 := ih (pre ++ [c]) (fun e he => h e (List.mem_cons_of_mem c he))
    simp only [List.length_append, List.length_singleton, List.append_assoc,
      List.singleton_append] at h2
    simp only [positionsList, traverseList, List.map_append, List.map_map, h2, ← h1]
    congr 1
    apply List.map_congr_left
    intro path _
    have hget : (pre ++ c :: cs)[pre.length]? = some c := by
      rw [List.getElem?_append_right (Nat.le_refl _)]
      simp
    show nodeAt (mk op args ids d r (some (pre ++ c :: cs))) (pre.length :: path) = nodeAt c path
    rw [profiled_nodeAt_cons]
    simp only [Slice.elems]
    rw [hget]
    rfl

theorem profiled_map_nodeAt_positions (p : ProfiledPlan Value) :
    (positions p).map (nodeAt p) = (traverse p).map some := by
  induction p using profiled_induct with
  | h op args ids d r cs ih =>
    cases cs with
    | none => simp [positions, positionsSlice, traverse, traverseSlice, nodeAt]
    | some l =>
      have := profiled_map_nodeAt_positionsList op args ids d r [] l (by simpa [Slice.elems] using ih)
      simp only [List.length_nil, List.nil_append] at this
      simp [positions, positionsSlice, traverse, traverseSlice, nodeAt, this]

theorem profiled_reachable_trans {a b c : ProfiledPlan Value} (hab : Reachable a b) (hbc : Reachable b c) :
    Reachable a c := by
  induction hbc with
  | root => exact hab
  | child _ hcs hmem ih => exact Reachable.child ih hcs hmem

theorem profiled_reachable_of_mem_children (op : String) (args : StringMap Value)
    (ids : Slice String)
    (d r : Int) (cs : Slice (ProfiledPlan Value)) (c : ProfiledPlan Value)
    (hc : c ∈ Slice.elems cs) : Reachable (mk op args ids d r cs) c :=
  Reachable.child Reachable.root rfl hc

theorem profiled_builtNonNilList_iff (cs : List (ProfiledPlan Value)) :
    builtNonNilList cs = true ↔ ∀ c ∈ cs, builtNonNil c = true := by
  induction cs with
  | nil => simp [builtNonNilList]
  | cons c cs ih => simp [builtNonNilList, ih]

theorem profiled_builtNonNil_iff (op : String) (args : StringMap Value) (ids : Slice String)
    (d r : Int) (cs : Slice (ProfiledPlan Value)) :
    builtNonNil (mk op args ids d r cs) = true
      ↔ StringMap.isNil args = false ∧ Slice.isNil ids = false
        ∧ ∀ c ∈ Slice.elems cs, builtNonNil c = true := by
  cases cs with
  | none => simp [builtNonNil, builtNonNilSlice, Slice.elems]
  | some l => simp [builtNonNil, builtNonNilSlice, Slice.elems, profiled_builtNonNilList_iff, and_assoc]

theorem profiled_builtNonNil_of_reachable {root n : ProfiledPlan Value} (h : builtNonNil root = true)
    (hr : Reachable root n) : builtNonNil n = true := by
  induction hr with
  | root => exact h
  | @child m c cs _ hcs hmem ih =>
    cases m with
    | mk op args ids d r kids =>
      have hk : kids = cs := by
        simpa [Children, Ptr.read, children] using hcs
      subst hk
      exact ((profiled_builtNonNil_iff op args ids d r kids).mp ih).2.2 c hmem

theorem profiled_builtNonNil_of_forall_reachable (root : ProfiledPlan Value)
    (h : ∀ n, Reachable root n →
      StringMap.isNil n.arguments = false ∧ Slice.isNil n.identifiers = false) :
    builtNonNil root = true := by
  induction root using profiled_induct with
  | h op args ids d r cs ih =>
    refine (profiled_builtNonNil_iff op args ids d r cs).mpr ⟨?_, ?_, ?_⟩
    · exact (h _ Reachable.root).1
    · exact (h _ Reachable.root).2
    · intro c hc
      exact ih c hc (fun n hn =>
        h n (profiled_reachable_trans (profiled_reachable_of_mem_children op args ids d r cs c hc) hn))

theorem profiled_builtNonNil_iff_reachable (root : ProfiledPlan Value) :
    builtNonNil root = true
      ↔ ∀ n, Reachable root n →
        ∃ args ids, Arguments (some n) = Except.ok (some args)
          ∧ Identifiers (some n) = Except.ok (some ids) := by
  constructor
  · intro h n hn
    have hb := profiled_builtNonNil_of_reachable h hn
    cases n with
    | mk op args ids d r cs =>
      have := (profiled_builtNonNil_iff op args ids d r cs).mp hb
      cases args with
      | none => simp [StringMap.isNil] at this
      | some a =>
        cases ids with
        | none => simp [Slice.isNil] at this
        | some i => exact ⟨a, i, rfl, rfl⟩
  · intro h
    apply profiled_builtNonNil_of_forall_reachable
    intro n hn
    obtain ⟨a, i, ha, hi⟩ := h n hn
    cases n with
    | mk op args ids d r cs =>
      have ha2 : args = some a := by
        simpa [Arguments, Ptr.read, arguments] using ha
      have hi2 : ids = some i := by
        simpa [Identifiers, Ptr.read, identifiers] using hi
      subst ha2
      subst hi2
      exact ⟨rfl, rfl⟩

end ProfiledPlan

/-- Claim C3: for every Plan tree and every ProfiledPlan tree the depth-first traversal
(the parent, then the subtrees of `Children()` in order) is a total function that
satisfies the recursion on `Children()`, visits the node at every position of the tree
exactly once (the positions are listed without repetition, a path is listed exactly
when it leads to a node, and the visited nodes are the nodes at the listed positions
in order), has as many entries as the tree has nodes, and yields without failure each
visited node's `Operator()`, `Arguments()` and `Identifiers()`; for the tree rooted at
"ProduceResults" with the single child "NodeByLabelScan" (identifiers ["n"], no
children) it yields exactly these two nodes, parent first. -/
theorem depth_first_traversal_visits_every_node_once {Value : Type} :
    (∀ p : Plan Value,
      (∀ cs, Plan.Children (some p) = Except.ok cs →
        Plan.traverse p = p :: (Slice.elems cs).flatMap Plan.traverse)
      ∧ (Plan.traverse p).length = Plan.numNodes p
      ∧ (∀ path, path ∈ Plan.positions p ↔ (Plan.nodeAt p path).isSome = true)
      ∧ (Plan.positions p).Nodup
      ∧ (Plan.positions p).map (Plan.nodeAt p) = (Plan.traverse p).map some
      ∧ Plan.walk p = Except.ok ((Plan.traverse p).map
          (fun n => Plan.Visit.mk n.operator n.arguments n.identifiers))
      ∧ (∀ n ∈ Plan.traverse p,
          Plan.Operator (some n) = Except.ok n.operator
          ∧ Plan.Arguments (some n) = Except.ok n.arguments
          ∧ Plan.Identifiers (some n) = Except.ok n.identifiers))
    ∧ (∀ p : ProfiledPlan Value,
      (∀ cs, ProfiledPlan.Children (some p) = Except.ok cs →
        ProfiledPlan.traverse p = p :: (Slice.elems cs).flatMap ProfiledPlan.traverse)
      ∧ (ProfiledPlan.traverse p).length = ProfiledPlan.numNodes p
      ∧ (∀ path, path ∈ ProfiledPlan.positions p
          ↔ (ProfiledPlan.nodeAt p path).isSome = true)
      ∧ (ProfiledPlan.positions p).Nodup
      ∧ (ProfiledPlan.positions p).map (ProfiledPlan.nodeAt p)
          = (ProfiledPlan.traverse p).map some
      ∧ ProfiledPlan.walk p = Except.ok ((ProfiledPlan.traverse p).map
          (fun n => ProfiledPlan.Visit.mk n.operator n.arguments n.identifiers))
      ∧ (∀ n ∈ ProfiledPlan.traverse p,
          ProfiledPlan.Operator (some n) = Except.ok n.operator
          ∧ ProfiledPlan.Arguments (some n) = Except.ok n.arguments
          ∧ ProfiledPlan.Identifiers (some n) = Except.ok n.identifiers))
    ∧ (∀ (rootArgs leafArgs : StringMap Value) (rootIds : Slice String)
        (noChildren : Slice (Plan Value)),
      noChildren = none ∨ noChildren = some [] →
      Plan.traverse (Plan.mk "ProduceResults" rootArgs rootIds
          (some [Plan.mk "NodeByLabelScan" leafArgs (some ["n"]) noChildren]))
        = [Plan.mk "ProduceResults" rootArgs rootIds
            (some [Plan.mk "NodeByLabelScan" leafArgs (some ["n"]) noChildren]),
           Plan.mk "NodeByLabelScan" leafArgs (some ["n"]) noChildren]
      ∧ Plan.walk (Plan.mk "ProduceResults" rootArgs rootIds
          (some [Plan.mk "NodeByLabelScan" leafArgs (some ["n"]) noChildren]))
        = Except.ok [Plan.Visit.mk "ProduceResults" rootArgs rootIds,
            Plan.Visit.mk "NodeByLabelScan" leafArgs (some ["n"])]) := by
  refine ⟨?_, ?_, ?_⟩
  · intro p
    exact ⟨Plan.traverse_eq_of_children p, Plan.length_traverse p,
      Plan.mem_positions_iff p, Plan.nodup_positions p, Plan.map_nodeAt_positions p,
      Plan.walk_eq p, fun _ _ => ⟨rfl, rfl, rfl⟩⟩
  · intro p
    exact ⟨ProfiledPlan.profiled_traverse_eq_of_children p,
      ProfiledPlan.profiled_length_traverse p, ProfiledPlan.profiled_mem_positions_iff p,
      ProfiledPlan.profiled_nodup_positions p, ProfiledPlan.profiled_map_nodeAt_positions p,
      ProfiledPlan.profiled_walk_eq p, fun _ _ => ⟨rfl, rfl, rfl⟩⟩
  · intro rootArgs leafArgs rootIds noChildren h
    rcases h with rfl | rfl <;> exact ⟨rfl, rfl⟩


/-- Claim C4: every sequence-valued accessor returns the supplied sequence itself:
`Children()` and `Identifiers()` of a Plan and of a ProfiledPlan equal the children
and identifiers the node was built with, and `Notifications()` equals the supplied
notification slice; hence the result has the same length and, at every index, the
same element as the supplied sequence. -/
theorem sequence_accessors_preserve_supplied {Stmt Value : Type} :
    (∀ (op : String) (args : StringMap Value) (ids : Slice String)
        (cs : Slice (Plan Value)),
      Plan.Children (some (Plan.mk op args ids cs)) = Except.ok cs
      ∧ Plan.Identifiers (some (Plan.mk op args ids cs)) = Except.ok ids
      ∧ (∀ got, Plan.Children (some (Plan.mk op args ids cs)) = Except.ok got →
          Slice.len got = Slice.len cs
          ∧ ∀ i : Nat, (Slice.elems got)[i]? = (Slice.elems cs)[i]?)
      ∧ (∀ got, Plan.Identifiers (some (Plan.mk op args ids cs)) = Except.ok got →
          Slice.len got = Slice.len ids
          ∧ ∀ i : Nat, (Slice.elems got)[i]? = (Slice.elems ids)[i]?))
    ∧ (∀ (op : String) (args : StringMap Value) (ids : Slice String) (d r : Int)
        (cs : Slice (ProfiledPlan Value)),
      ProfiledPlan.Children (some (ProfiledPlan.mk op args ids d r cs)) = Except.ok cs
      ∧ ProfiledPlan.Identifiers (some (ProfiledPlan.mk op args ids d r cs))
          = Except.ok ids
      ∧ (∀ got, ProfiledPlan.Children (some (ProfiledPlan.mk op args ids d r cs))
            = Except.ok got →
          Slice.len got = Slice.len cs
          ∧ ∀ i : Nat, (Slice.elems got)[i]? = (Slice.elems cs)[i]?)
      ∧ (∀ got, ProfiledPlan.Identifiers (some (ProfiledPlan.mk op args ids d r cs))
            = Except.ok got →
          Slice.len got = Slice.len ids
          ∧ ∀ i : Nat, (Slice.elems got)[i]? = (Slice.elems ids)[i]?))
    ∧ (∀ (server : ServerInfo) (statement : Stmt) (statementType : StatementType)
        (counters : Counters) (plan : Ptr (Plan Value))
        (profile : Ptr (ProfiledPlan Value)) (notifications : Slice Notification)
        (resultAvailableAfter resultConsumedAfter : Int),
      ResultSummary.Notifications (some (ResultSummary.mk server statement statementType
          counters plan profile notifications resultAvailableAfter resultConsumedAfter))
        = Except.ok notifications
      ∧ (∀ got, ResultSummary.Notifications (some (ResultSummary.mk server statement
            statementType counters plan profile notifications resultAvailableAfter
            resultConsumedAfter)) = Except.ok got →
          Slice.len got = Slice.len notifications
          ∧ ∀ i : Nat, (Slice.elems got)[i]? = (Slice.elems notifications)[i]?)) := by
  refine ⟨?_, ?_, ?_⟩
  · intro op args ids cs
    refine ⟨rfl, rfl, ?_, ?_⟩
    · intro got h
      have hg : cs = got := by
        simpa [Plan.Children, Ptr.read, Plan.children] using h
      subst hg
      exact ⟨rfl, fun _ => rfl⟩
    · intro got h
      have hg : ids = got := by
        simpa [Plan.Identifiers, Ptr.read, Plan.identifiers] using h
      subst hg
      exact ⟨rfl, fun _ => rfl⟩
  · intro op args ids d r cs
    refine ⟨rfl, rfl, ?_, ?_⟩
    · intro got h
      have hg : cs = got := by
        simpa [ProfiledPlan.Children, Ptr.read, ProfiledPlan.children] using h
      subst hg
      exact ⟨rfl, fun _ => rfl⟩
    · intro got h
      have hg : ids = got := by
        simpa [ProfiledPlan.Identifiers, Ptr.read, ProfiledPlan.identifiers] using h
      subst hg
      exact ⟨rfl, fun _ => rfl⟩
  · intro server statement statementType counters plan profile notifications ra rc
    refine ⟨rfl, ?_⟩
    intro got h
    have hg : notifications = got := by
      simpa [ResultSummary.Notifications, Ptr.read] using h
    subst hg
    exact ⟨rfl, fun _ => rfl⟩

/-- Claim C5: the eleven Counters accessors are independent and do no validation,
computation or clamping: for every Counters value, every field and every integer `v`
(negative included), after replacing that field by `v` the accessor of the field
returns exactly `v` and each of the other ten accessors returns what it returned
before; and the Counters with fields 1 through 11 reports 1 through 11 from the
correspondingly named accessors. -/
theorem Counters.accessors_independent :
    (∀ (c : Counters) (f g : CounterField) (v : Int),
      Counters.accessor g (some (Counters.replace f v c))
        = if g = f then Except.ok v else Counters.accessor g (some c))
    ∧ (∀ (c : Counters) (f : CounterField),
      ∃ v, Counters.accessor f (some c) = Except.ok v)
    ∧ Counters.NodesCreated (some (Counters.mk 1 2 3 4 5 6 7 8 9 10 11)) = Except.ok 1
    ∧ Counters.NodesDeleted (some (Counters.mk 1 2 3 4 5 6 7 8 9 10 11)) = Except.ok 2
    ∧ Counters.RelationshipsCreated (some (Counters.mk 1 2 3 4 5 6 7 8 9 10 11))
        = Except.ok 3
    ∧ Counters.RelationshipsDeleted (some (Counters.mk 1 2 3 4 5 6 7 8 9 10 11))
        = Except.ok 4
    ∧ Counters.PropertiesSet (some (Counters.mk 1 2 3 4 5 6 7 8 9 10 11)) = Except.ok 5
    ∧ Counters.LabelsAdded (some (Counters.mk 1 2 3 4 5 6 7 8 9 10 11)) = Except.ok 6
    ∧ Counters.LabelsRemoved (some (Counters.mk 1 2 3 4 5 6 7 8 9 10 11)) = Except.ok 7
    ∧ Counters.IndexesAdded (some (Counters.mk 1 2 3 4 5 6 7 8 9 10 11)) = Except.ok 8
    ∧ Counters.IndexesRemoved (some (Counters.mk 1 2 3 4 5 6 7 8 9 10 11)) = Except.ok 9
    ∧ Counters.ConstraintsAdded (some (Counters.mk 1 2 3 4 5 6 7 8 9 10 11))
        = Except.ok 10
    ∧ Counters.ConstraintsRemoved (some (Counters.mk 1 2 3 4 5 6 7 8 9 10 11))
        = Except.ok 11 := by
  refine ⟨?_, ?_, rfl, rfl, rfl, rfl, rfl, rfl, rfl, rfl, rfl, rfl, rfl⟩
  · intro c f g v
    cases f <;> cases g <;> rfl
  · intro c f
    cases f <;> exact ⟨_, rfl⟩


/-- Counterexample to claim C6: the integer 7 is a StatementType value, a summary
holding it returns it from `StatementType()`, and it is none of the five constants. -/
theorem statementType_out_of_range :
    ResultSummary.StatementType (some (ResultSummary.mk (ServerInfo.mk "" "") ()
        (7 : StatementType) (Counters.mk 0 0 0 0 0 0 0 0 0 0 0) (none : Ptr (Plan Unit)) none none 0 0))
      = Except.ok (7 : StatementType)
    ∧ (7 : StatementType) ≠ StatementTypeUnknown
    ∧ (7 : StatementType) ≠ StatementTypeReadOnly
    ∧ (7 : StatementType) ≠ StatementTypeReadWrite
    ∧ (7 : StatementType) ≠ StatementTypeWriteOnly
    ∧ (7 : StatementType) ≠ StatementTypeSchemaWrite := by
  refine ⟨rfl, ?_, ?_, ?_, ?_, ?_⟩ <;> decide

/-- Claim C6, amended: StatementType is an integer type with the five named constants
0, 1, 2, 3, 4; `ResultSummary.StatementType()` returns the stored integer unchanged,
and that value is one of the five constants exactly when it lies between 0 and 4. -/
theorem statementType_returns_stored {Stmt Value : Type}
    (server : ServerInfo) (statement : Stmt) (statementType : Neo4j.StatementType)
    (counters : Neo4j.Counters) (plan : Ptr (Neo4j.Plan Value))
    (profile : Ptr (ProfiledPlan Value)) (notifications : Slice Notification)
    (resultAvailableAfter resultConsumedAfter : Int) :
    ResultSummary.StatementType (some (ResultSummary.mk server statement statementType
        counters plan profile notifications resultAvailableAfter resultConsumedAfter))
      = Except.ok statementType
    ∧ ((statementType = StatementTypeUnknown ∨ statementType = StatementTypeReadOnly
        ∨ statementType = StatementTypeReadWrite ∨ statementType = StatementTypeWriteOnly
        ∨ statementType = StatementTypeSchemaWrite)
      ↔ (0 ≤ statementType ∧ statementType ≤ 4))
    ∧ StatementTypeUnknown = 0 ∧ StatementTypeReadOnly = 1 ∧ StatementTypeReadWrite = 2
    ∧ StatementTypeWriteOnly = 3 ∧ StatementTypeSchemaWrite = 4 := by
  have key : ∀ t : Int, (t = 0 ∨ t = 1 ∨ t = 2 ∨ t = 3 ∨ t = 4) ↔ (0 ≤ t ∧ t ≤ 4) := by
    intro t
    omega
  exact ⟨rfl, key statementType, rfl, rfl, rfl, rfl, rfl⟩

/-- Counterexample to claim C7: for a notification built without a position,
`Position()` does not report absent (nil), and its result equals the result on a
notification built with the position offset 0, line 0, column 0. -/
theorem Notification.position_absent_not_reported :
    Notification.Position (some (Notification.literalNoPosition "c" "t" "d" "s"))
      ≠ Except.ok none
    ∧ Notification.Position (some (Notification.literalNoPosition "c" "t" "d" "s"))
      = Notification.Position
          (some (Notification.mk "c" "t" "d" (InputPosition.mk 0 0 0) "s")) :=
  ⟨by simp [Notification.Position, Ptr.read], rfl⟩

/-- Claim C7, amended: a Notification stores its position by value and has no absent
state: `Position()` on any notification returns a non-nil reference to the stored
position; a notification built without a position holds the zero position, so
`Position()` reports offset 0, line 0, column 0 for it, the same result as for a
notification built with the position (0, 0, 0). -/
theorem Notification.position_always_present :
    (∀ n : Notification,
      Notification.Position (some n) = Except.ok (some n.position)
      ∧ Notification.Position (some n) ≠ Except.ok none)
    ∧ (∀ code title description severity : String,
      Notification.Position
          (some (Notification.literalNoPosition code title description severity))
        = Notification.Position
          (some (Notification.mk code title description (InputPosition.mk 0 0 0) severity))
      ∧ (Notification.Position
          (some (Notification.literalNoPosition code title description severity))
          >>= InputPosition.Offset) = Except.ok 0
      ∧ (Notification.Position
          (some (Notification.literalNoPosition code title description severity))
          >>= InputPosition.Line) = Except.ok 0
      ∧ (Notification.Position
          (some (Notification.literalNoPosition code title description severity))
          >>= InputPosition.Column) = Except.ok 0) := by
  refine ⟨?_, ?_⟩
  · intro n
    exact ⟨rfl, by simp [Notification.Position, Ptr.read]⟩
  · intro code title description severity
    exact ⟨rfl, rfl, rfl, rfl⟩

/-- Counterexample to claim C8: for a summary built without plan and profile,
`Plan()` and `Profile()` return nil, and `Operator()` on the returned Plan reference
and `DbHits()` on the returned ProfiledPlan reference fail with a nil dereference. -/
theorem absent_plan_accessor_panics :
    (ResultSummary.Plan (some (ResultSummary.mk (ServerInfo.mk "" "") ()
        StatementTypeUnknown (Counters.mk 0 0 0 0 0 0 0 0 0 0 0) (none : Ptr (Plan Unit)) none none 0 0))
      >>= Plan.Operator) = Except.error GoPanic.nilDereference
    ∧ (ResultSummary.Profile (some (ResultSummary.mk (ServerInfo.mk "" "") ()
        StatementTypeUnknown (Counters.mk 0 0 0 0 0 0 0 0 0 0 0) (none : Ptr (Plan Unit)) none none 0 0))
      >>= ProfiledPlan.DbHits) = Except.error GoPanic.nilDereference :=
  ⟨rfl, rfl⟩

/-- Claim C8, amended: every accessor of the module returns a value exactly when its
receiver is non-nil: on every non-nil receiver it returns and never fails, and on a
nil receiver it panics with a nil dereference; `Plan()` / `Profile()` of a summary
return nil when the tree is absent, so the Plan / ProfiledPlan accessors called on
that result panic, while the references returned by `Server()`, `Counters()` and
`Position()` are never nil. -/
theorem accessors_return_iff_receiver_non_nil {Stmt Value : Type} :
    (∀ p : Ptr (ServerInfo),
      returns (ServerInfo.Address p) = p.isSome
      ∧ returns (ServerInfo.Version p) = p.isSome)
    ∧ (∀ p : Ptr (InputPosition),
      returns (InputPosition.Offset p) = p.isSome
      ∧ returns (InputPosition.Line p) = p.isSome
      ∧ returns (InputPosition.Column p) = p.isSome)
    ∧ (∀ p : Ptr (Notification),
      returns (Notification.Code p) = p.isSome
      ∧ returns (Notification.Title p) = p.isSome
      ∧ returns (Notification.Description p) = p.isSome
      ∧ returns (Notification.Position p) = p.isSome
      ∧ returns (Notification.Severity p) = p.isSome)
    ∧ (∀ p : Ptr (Counters),
      returns (Counters.NodesCreated p) = p.isSome
      ∧ returns (Counters.NodesDeleted p) = p.isSome
      ∧ returns (Counters.RelationshipsCreated p) = p.isSome
      ∧ returns (Counters.RelationshipsDeleted p) = p.isSome
      ∧ returns (Counters.PropertiesSet p) = p.isSome
      ∧ returns (Counters.LabelsAdded p) = p.isSome
      ∧ returns (Counters.LabelsRemoved p) = p.isSome
      ∧ returns (Counters.IndexesAdded p) = p.isSome
      ∧ returns (Counters.IndexesRemoved p) = p.isSome
      ∧ returns (Counters.ConstraintsAdded p) = p.isSome
      ∧ returns (Counters.ConstraintsRemoved p) = p.isSome)
    ∧ (∀ p : Ptr (Plan Value),
      returns (Plan.Operator p) = p.isSome
      ∧ returns (Plan.Arguments p) = p.isSome
      ∧ returns (Plan.Identifiers p) = p.isSome
      ∧ returns (Plan.Children p) = p.isSome)
    ∧ (∀ p : Ptr (ProfiledPlan Value),
      returns (ProfiledPlan.Operator p) = p.isSome
      ∧ returns (ProfiledPlan.Arguments p) = p.isSome
      ∧ returns (ProfiledPlan.Identifiers p) = p.isSome
      ∧ returns (ProfiledPlan.DbHits p) = p.isSome
      ∧ returns (ProfiledPlan.Records p) = p.isSome
      ∧ returns (ProfiledPlan.Children p) = p.isSome)
    ∧ (∀ p : Ptr (ResultSummary Stmt Value),
      returns (ResultSummary.Server p) = p.isSome
      ∧ returns (ResultSummary.Statement p) = p.isSome
      ∧ returns (ResultSummary.StatementType p) = p.isSome
      ∧ returns (ResultSummary.Counters p) = p.isSome
      ∧ returns (ResultSummary.Plan p) = p.isSome
      ∧ returns (ResultSummary.Profile p) = p.isSome
      ∧ returns (ResultSummary.Notifications p) = p.isSome
      ∧ returns (ResultSummary.ResultAvailableAfter p) = p.isSome
      ∧ returns (ResultSummary.ResultConsumedAfter p) = p.isSome)
    ∧ (∀ s : ResultSummary Stmt Value,
      (s.plan = none →
        (ResultSummary.Plan (some s) >>= Plan.Operator)
            = Except.error GoPanic.nilDereference
        ∧ (ResultSummary.Plan (some s) >>= Plan.Arguments)
            = Except.error GoPanic.nilDereference
        ∧ (ResultSummary.Plan (some s) >>= Plan.Identifiers)
            = Except.error GoPanic.nilDereference
        ∧ (ResultSummary.Plan (some s) >>= Plan.Children)
            = Except.error GoPanic.nilDereference)
      ∧ (s.profile = none →
        (ResultSummary.Profile (some s) >>= ProfiledPlan.Operator)
            = Except.error GoPanic.nilDereference
        ∧ (ResultSummary.Profile (some s) >>= ProfiledPlan.Arguments)
            = Except.error GoPanic.nilDereference
        ∧ (ResultSummary.Profile (some s) >>= ProfiledPlan.Identifiers)
            = Except.error GoPanic.nilDereference
        ∧ (ResultSummary.Profile (some s) >>= ProfiledPlan.DbHits)
            = Except.error GoPanic.nilDereference
        ∧ (ResultSummary.Profile (some s) >>= ProfiledPlan.Records)
            = Except.error GoPanic.nilDereference
        ∧ (ResultSummary.Profile (some s) >>= ProfiledPlan.Children)
            = Except.error GoPanic.nilDereference)
      ∧ ResultSummary.Server (some s) = Except.ok (some s.server)
      ∧ ResultSummary.Counters (some s) = Except.ok (some s.counters))
    ∧ (∀ n : Notification,
      Notification.Position (some n) = Except.ok (some n.position)) := by
  refine ⟨?_, ?_, ?_, ?_, ?_, ?_, ?_, ?_, ?_⟩
  · intro p
    cases p <;> exact ⟨rfl, rfl⟩
  · intro p
    cases p <;> exact ⟨rfl, rfl, rfl⟩
  · intro p
    cases p <;> exact ⟨rfl, rfl, rfl, rfl, rfl⟩
  · intro p
    cases p <;> exact ⟨rfl, rfl, rfl, rfl, rfl, rfl, rfl, rfl, rfl, rfl, rfl⟩
  · intro p
    cases p <;> exact ⟨rfl, rfl, rfl, rfl⟩
  · intro p
    cases p <;> exact ⟨rfl, rfl, rfl, rfl, rfl, rfl⟩
  · intro p
    cases p <;> exact ⟨rfl, rfl, rfl, rfl, rfl, rfl, rfl, rfl, rfl⟩
  · intro s
    refine ⟨?_, ?_, rfl, rfl⟩
    · intro h
      simp [ResultSummary.Plan, Ptr.read, h, Plan.Operator, Plan.Arguments,
        Plan.Identifiers, Plan.Children, bind, Except.bind]
    · intro h
      simp [ResultSummary.Profile, Ptr.read, h, ProfiledPlan.Operator,
        ProfiledPlan.Arguments, ProfiledPlan.Identifiers, ProfiledPlan.DbHits,
        ProfiledPlan.Records, ProfiledPlan.Children, bind, Except.bind]
  · intro n
    rfl


/-- Counterexample to claim C9: a summary built with the plan node "ProduceResults"
whose `arguments` and `identifiers` are nil reports the plan as present, and
`Arguments()` and `Identifiers()` of its root return nil containers. -/
theorem present_plan_nil_containers :
    ResultSummary.Plan (some (ResultSummary.mk (ServerInfo.mk "" "") ()
        StatementTypeUnknown (Counters.mk 0 0 0 0 0 0 0 0 0 0 0)
        (some (Plan.mk "ProduceResults" none none none : Plan Unit)) none none 0 0))
      = Except.ok (some (Plan.mk "ProduceResults" none none none))
    ∧ Plan.Arguments (some (Plan.mk "ProduceResults" none none none : Plan Unit))
      = Except.ok none
    ∧ Plan.Identifiers (some (Plan.mk "ProduceResults" none none none : Plan Unit))
      = Except.ok none :=
  ⟨rfl, rfl, rfl⟩

/-- Claim C9, amended: whenever `Plan()` or `Profile()` of a summary reports a
present tree, the reported tree is the tree the summary was built with, unchanged;
`Arguments()` and `Identifiers()` of its root and of every node reachable through
`Children()` return the containers that node was built with; and they are non-nil at
every such node exactly when every node of the supplied tree was built with non-nil
containers (a nil container is neither rejected nor replaced). -/
theorem present_tree_containers_as_built {Stmt Value : Type}
    (server : ServerInfo) (statement : Stmt) (statementType : StatementType)
    (counters : Counters) (plan : Ptr (Plan Value)) (profile : Ptr (ProfiledPlan Value))
    (notifications : Slice Notification) (resultAvailableAfter resultConsumedAfter : Int) :
    (∀ root : Plan Value,
      ResultSummary.Plan (some (ResultSummary.mk server statement statementType counters plan
          profile notifications resultAvailableAfter resultConsumedAfter))
        = Except.ok (some root) →
      plan = some root
      ∧ (∀ n, Plan.Reachable root n →
        Plan.Arguments (some n) = Except.ok n.arguments
        ∧ Plan.Identifiers (some n) = Except.ok n.identifiers)
      ∧ (∀ supplied : Plan Value, plan = some supplied →
        (Plan.builtNonNil supplied = true ↔
          ∀ n, Plan.Reachable root n →
            ∃ args ids, Plan.Arguments (some n) = Except.ok (some args)
              ∧ Plan.Identifiers (some n) = Except.ok (some ids))))
    ∧ (∀ root : ProfiledPlan Value,
      ResultSummary.Profile (some (ResultSummary.mk server statement statementType counters plan
          profile notifications resultAvailableAfter resultConsumedAfter))
        = Except.ok (some root) →
      profile = some root
      ∧ (∀ n, ProfiledPlan.Reachable root n →
        ProfiledPlan.Arguments (some n) = Except.ok n.arguments
        ∧ ProfiledPlan.Identifiers (some n) = Except.ok n.identifiers)
      ∧ (∀ supplied : ProfiledPlan Value, profile = some supplied →
        (ProfiledPlan.builtNonNil supplied = true ↔
          ∀ n, ProfiledPlan.Reachable root n →
            ∃ args ids, ProfiledPlan.Arguments (some n) = Except.ok (some args)
              ∧ ProfiledPlan.Identifiers (some n) = Except.ok (some ids)))) := by
  refine ⟨?_, ?_⟩
  · intro root h
    have hroot : plan = some root := by
      simpa [ResultSummary.Plan, Ptr.read] using h
    refine ⟨hroot, fun _ _ => ⟨rfl, rfl⟩, ?_⟩
    intro supplied hs
    have hsame : supplied = root := Option.some.inj (hs.symm.trans hroot)
    subst hsame
    exact Plan.builtNonNil_iff_reachable supplied
  · intro root h
    have hroot : profile = some root := by
      simpa [ResultSummary.Profile, Ptr.read] using h
    refine ⟨hroot, fun _ _ => ⟨rfl, rfl⟩, ?_⟩
    intro supplied hs
    have hsame : supplied = root := Option.some.inj (hs.symm.trans hroot)
    subst hsame
    exact ProfiledPlan.profiled_builtNonNil_iff_reachable supplied

/-- Witness for claim C9: the summary built with the plan "ProduceResults" over
"NodeByLabelScan", both nodes with non-nil containers, reports that plan as present;
the supplied tree was built with non-nil containers, and every node reachable in the
reported tree returns non-nil containers. -/
theorem present_tree_containers_as_built_witness :
    ResultSummary.Plan (some (ResultSummary.mk (ServerInfo.mk "" "") ()
        StatementTypeUnknown (Counters.mk 0 0 0 0 0 0 0 0 0 0 0)
        (some (Plan.mk "ProduceResults" (some []) (some [])
          (some [Plan.mk "NodeByLabelScan" (some []) (some ["n"]) none]) : Plan Unit))
        none none 0 0))
      = Except.ok (some (Plan.mk "ProduceResults" (some []) (some [])
          (some [Plan.mk "NodeByLabelScan" (some []) (some ["n"]) none]) : Plan Unit))
    ∧ Plan.builtNonNil (Plan.mk "ProduceResults" (some []) (some [])
          (some [Plan.mk "NodeByLabelScan" (some []) (some ["n"]) none]) : Plan Unit) = true
    ∧ ∀ n, Plan.Reachable (Plan.mk "ProduceResults" (some []) (some [])
          (some [Plan.mk "NodeByLabelScan" (some []) (some ["n"]) none]) : Plan Unit) n →
        ∃ args ids, Plan.Arguments (some n) = Except.ok (some args)
          ∧ Plan.Identifiers (some n) = Except.ok (some ids) :=
  ⟨rfl, rfl,
    ((((present_tree_containers_as_built (ServerInfo.mk "" "") ()
        StatementTypeUnknown (Counters.mk 0 0 0 0 0 0 0 0 0 0 0)
        (some (Plan.mk "ProduceResults" (some []) (some [])
          (some [Plan.mk "NodeByLabelScan" (some []) (some ["n"]) none]) : Plan Unit))
        none none 0 0).1 _ rfl).2.2) _ rfl).mp rfl⟩

/-- Claim C10: for a Notification built from code, title, description, severity and a
position (offset, line, column), `Code()`, `Title()`, `Description()` and `Severity()`
return the supplied string of their own field and `Position().Offset()`,
`Position().Line()`, `Position().Column()` return the supplied offset, line and
column; and for the notification with code
"Neo.ClientNotification.Statement.UnknownLabelWarning", severity "WARNING" and
position offset 10, line 1, column 11 placed alone in a ResultSummary,
`Notifications()` has exactly one element, which reports these values. -/
theorem notification_accessors_roundtrip {Stmt Value : Type} :
    (∀ (code title description severity : String) (offset line column : Int),
      Notification.Code (some (Notification.mk code title description
          (InputPosition.mk offset line column) severity)) = Except.ok code
      ∧ Notification.Title (some (Notification.mk code title description
          (InputPosition.mk offset line column) severity)) = Except.ok title
      ∧ Notification.Description (some (Notification.mk code title description
          (InputPosition.mk offset line column) severity)) = Except.ok description
      ∧ Notification.Severity (some (Notification.mk code title description
          (InputPosition.mk offset line column) severity)) = Except.ok severity
      ∧ Notification.Position (some (Notification.mk code title description
          (InputPosition.mk offset line column) severity))
        = Except.ok (some (InputPosition.mk offset line column))
      ∧ (Notification.Position (some (Notification.mk code title description
          (InputPosition.mk offset line column) severity))
          >>= InputPosition.Offset) = Except.ok offset
      ∧ (Notification.Position (some (Notification.mk code title description
          (InputPosition.mk offset line column) severity))
          >>= InputPosition.Line) = Except.ok line
      ∧ (Notification.Position (some (Notification.mk code title description
          (InputPosition.mk offset line column) severity))
          >>= InputPosition.Column) = Except.ok column)
    ∧ (∀ (title description : String) (server : ServerInfo) (statement : Stmt)
        (statementType : StatementType) (counters : Counters) (plan : Ptr (Plan Value))
        (profile : Ptr (ProfiledPlan Value)) (resultAvailableAfter resultConsumedAfter : Int),
      ResultSummary.Notifications (some (ResultSummary.mk server statement statementType counters plan profile
          (some [(Notification.mk "Neo.ClientNotification.Statement.UnknownLabelWarning" title
          description (InputPosition.mk 10 1 11) "WARNING")])
          resultAvailableAfter resultConsumedAfter))
        = Except.ok (some [(Notification.mk "Neo.ClientNotification.Statement.UnknownLabelWarning" title
          description (InputPosition.mk 10 1 11) "WARNING")])
      ∧ ∀ got, ResultSummary.Notifications (some (ResultSummary.mk server statement statementType counters plan profile
          (some [(Notification.mk "Neo.ClientNotification.Statement.UnknownLabelWarning" title
          description (InputPosition.mk 10 1 11) "WARNING")])
          resultAvailableAfter resultConsumedAfter))
          = Except.ok got →
        Slice.len got = 1
        ∧ ∀ n ∈ Slice.elems got,
          Notification.Code (some n)
            = Except.ok "Neo.ClientNotification.Statement.UnknownLabelWarning"
          ∧ Notification.Severity (some n) = Except.ok "WARNING"
          ∧ (Notification.Position (some n) >>= InputPosition.Offset) = Except.ok 10
          ∧ (Notification.Position (some n) >>= InputPosition.Line) = Except.ok 1
          ∧ (Notification.Position (some n) >>= InputPosition.Column) = Except.ok 11) := by
  refine ⟨?_, ?_⟩
  · intro code title description severity offset line column
    exact ⟨rfl, rfl, rfl, rfl, rfl, rfl, rfl, rfl⟩
  · intro title description server statement statementType counters plan profile ra rc
    refine ⟨rfl, ?_⟩
    intro got h
    have hg : some [(Notification.mk "Neo.ClientNotification.Statement.UnknownLabelWarning" title
          description (InputPosition.mk 10 1 11) "WARNING")] = got := by
      simpa [ResultSummary.Notifications, Ptr.read] using h
    subst hg
    refine ⟨rfl, ?_⟩
    intro n hn
    have hn2 : n = (Notification.mk "Neo.ClientNotification.Statement.UnknownLabelWarning" title
          description (InputPosition.mk 10 1 11) "WARNING") := by
      simpa [Slice.elems] using hn
    subst hn2
    exact ⟨rfl, rfl, rfl, rfl, rfl⟩


/-! ### Lemmas on sequences of accessor calls -/

theorem runCalls_of_calls_keep {α : Type} (methods : List (Method α))
    (h : ∀ m ∈ methods, ∀ v : α, ∃ r, m.call (some v) = Except.ok (r, some v))
    (ms : List (Method α)) (hms : ∀ m ∈ ms, m ∈ methods) (v : α) :
    runCalls ms (some v) = Except.ok (some v) := by
  induction ms with
  | nil => rfl
  | cons m ms ih =>
    obtain ⟨r, hr⟩ := h m (hms m (List.mem_cons_self m ms)) v
    simp only [runCalls, hr]
    exact ih (fun k hk => hms k (List.mem_cons_of_mem m hk))

theorem pureReads_of_calls {α : Type} (methods : List (Method α))
    (h : ∀ m ∈ methods, ∀ v : α,
      ∃ r, m.call (some v) = Except.ok (r, some v) ∧ m.read (some v) = Except.ok r) :
    PureReads methods := by
  refine ⟨h, ?_⟩
  intro ms hms v
  have hrun : runCalls ms (some v) = Except.ok (some v) :=
    runCalls_of_calls_keep methods
      (fun m hm w => (h m hm w).imp (fun _ hr => hr.1)) ms hms v
  refine ⟨hrun, ?_⟩
  intro m _
  rw [hrun]
  exact ⟨rfl, rfl⟩

/-- Claim C11: for a ProfiledPlan node built from operator, arguments, identifiers,
dbHits `d`, records `r` and children, for all integers `d` and `r` (the 64-bit ones
among them, the two extremes included), `DbHits()` returns `d` and `Records()`
returns `r`, so the two differ whenever `d` and `r` differ; `Operator()`,
`Arguments()` and `Identifiers()` return the supplied operator, arguments and
identifiers, the same results as the same-named Plan accessors on a Plan built from
the same values, and `Children()` returns the supplied children as `Plan.Children()`
does. -/
theorem profiledPlan_accessors_roundtrip {Value : Type} :
    (∀ (op : String) (args : StringMap Value) (ids : Slice String) (d r : Int)
        (cs : Slice (ProfiledPlan Value)) (planChildren : Slice (Plan Value)),
      ProfiledPlan.DbHits (some (ProfiledPlan.mk op args ids d r cs)) = Except.ok d
      ∧ ProfiledPlan.Records (some (ProfiledPlan.mk op args ids d r cs)) = Except.ok r
      ∧ (d ≠ r → ProfiledPlan.DbHits (some (ProfiledPlan.mk op args ids d r cs))
          ≠ ProfiledPlan.Records (some (ProfiledPlan.mk op args ids d r cs)))
      ∧ ProfiledPlan.Operator (some (ProfiledPlan.mk op args ids d r cs)) = Except.ok op
      ∧ ProfiledPlan.Operator (some (ProfiledPlan.mk op args ids d r cs))
          = Plan.Operator (some (Plan.mk op args ids planChildren))
      ∧ ProfiledPlan.Arguments (some (ProfiledPlan.mk op args ids d r cs)) = Except.ok args
      ∧ ProfiledPlan.Arguments (some (ProfiledPlan.mk op args ids d r cs))
          = Plan.Arguments (some (Plan.mk op args ids planChildren))
      ∧ ProfiledPlan.Identifiers (some (ProfiledPlan.mk op args ids d r cs)) = Except.ok ids
      ∧ ProfiledPlan.Identifiers (some (ProfiledPlan.mk op args ids d r cs))
          = Plan.Identifiers (some (Plan.mk op args ids planChildren))
      ∧ ProfiledPlan.Children (some (ProfiledPlan.mk op args ids d r cs)) = Except.ok cs
      ∧ Plan.Children (some (Plan.mk op args ids planChildren)) = Except.ok planChildren)
    ∧ ProfiledPlan.DbHits (some (ProfiledPlan.mk "" (none : StringMap Value) none
        (-9223372036854775808) 9223372036854775807 none))
      = Except.ok (-9223372036854775808)
    ∧ ProfiledPlan.Records (some (ProfiledPlan.mk "" (none : StringMap Value) none
        (-9223372036854775808) 9223372036854775807 none))
      = Except.ok 9223372036854775807 := by
  refine ⟨?_, rfl, rfl⟩
  intro op args ids d r cs planChildren
  refine ⟨rfl, rfl, ?_, rfl, rfl, rfl, rfl, rfl, rfl, rfl, rfl⟩
  intro hdr h
  apply hdr
  simpa [ProfiledPlan.DbHits, ProfiledPlan.Records, Ptr.read, ProfiledPlan.dbHits,
    ProfiledPlan.records] using h

/-- Claim C12: all accessors are pure reads: for ServerInfo, InputPosition,
Notification, Counters, Plan, ProfiledPlan and ResultSummary (2, 3, 5, 11, 4, 6 and 9
accessors), a call of any accessor on a non-nil receiver returns the value the
accessor reads and leaves every field of the receiver unchanged, so after any
sequence of accessor calls the receiver is as before and any accessor returns the
value it returned before them. -/
theorem accessors_are_pure_reads {Stmt Value : Type} :
    PureReads serverInfoMethods
    ∧ PureReads inputPositionMethods
    ∧ PureReads notificationMethods
    ∧ PureReads countersMethods
    ∧ PureReads (planMethods Value)
    ∧ PureReads (profiledPlanMethods Value)
    ∧ PureReads (resultSummaryMethods Stmt Value)
    ∧ serverInfoMethods.length = 2
    ∧ inputPositionMethods.length = 3
    ∧ notificationMethods.length = 5
    ∧ countersMethods.length = 11
    ∧ (planMethods Value).length = 4
    ∧ (profiledPlanMethods Value).length = 6
    ∧ (resultSummaryMethods Stmt Value).length = 9 := by
  refine ⟨?_, ?_, ?_, ?_, ?_, ?_, ?_, rfl, rfl, rfl, rfl, rfl, rfl, rfl⟩
  · apply pureReads_of_calls
    intro m hm v
    simp only [serverInfoMethods, List.mem_cons, List.mem_singleton, List.not_mem_nil, or_false] at hm
    rcases hm with rfl | rfl <;> exact ⟨_, rfl, rfl⟩
  · apply pureReads_of_calls
    intro m hm v
    simp only [inputPositionMethods, List.mem_cons, List.mem_singleton, List.not_mem_nil, or_false] at hm
    rcases hm with rfl | rfl | rfl <;> exact ⟨_, rfl, rfl⟩
  · apply pureReads_of_calls
    intro m hm v
    simp only [notificationMethods, List.mem_cons, List.mem_singleton, List.not_mem_nil, or_false] at hm
    rcases hm with rfl | rfl | rfl | rfl | rfl <;> exact ⟨_, rfl, rfl⟩
  · apply pureReads_of_calls
    intro m hm v
    simp only [countersMethods, List.mem_cons, List.mem_singleton, List.not_mem_nil, or_false] at hm
    rcases hm with rfl | rfl | rfl | rfl | rfl | rfl | rfl | rfl | rfl | rfl | rfl <;> exact ⟨_, rfl, rfl⟩
  · apply pureReads_of_calls
    intro m hm v
    simp only [planMethods, List.mem_cons, List.mem_singleton, List.not_mem_nil, or_false] at hm
    rcases hm with rfl | rfl | rfl | rfl <;> exact ⟨_, rfl, rfl⟩
  · apply pureReads_of_calls
    intro m hm v
    simp only [profiledPlanMethods, List.mem_cons, List.mem_singleton, List.not_mem_nil, or_false] at hm
    rcases hm with rfl | rfl | rfl | rfl | rfl | rfl <;> exact ⟨_, rfl, rfl⟩
  · apply pureReads_of_calls
    intro m hm v
    simp only [resultSummaryMethods, List.mem_cons, List.mem_singleton, List.not_mem_nil, or_false] at hm
    rcases hm with rfl | rfl | rfl | rfl | rfl | rfl | rfl | rfl | rfl <;> exact ⟨_, rfl, rfl⟩

/-- Claim C13: the five StatementType constants have the pairwise distinct values 0,
1, 2, 3, 4 (Unknown, ReadOnly, ReadWrite, WriteOnly, SchemaWrite in that order), and
StatementTypeUnknown is the zero value of the type, so a ResultSummary whose
statementType was left default-initialised reports StatementTypeUnknown from
`StatementType()` and none of the other four constants. -/
theorem statementType_constants_and_zero_value {Stmt Value : Type} :
    StatementTypeUnknown = 0 ∧ StatementTypeReadOnly = 1 ∧ StatementTypeReadWrite = 2
    ∧ StatementTypeWriteOnly = 3 ∧ StatementTypeSchemaWrite = 4
    ∧ [StatementTypeUnknown, StatementTypeReadOnly, StatementTypeReadWrite,
        StatementTypeWriteOnly, StatementTypeSchemaWrite].Nodup
    ∧ zeroStatementType = StatementTypeUnknown
    ∧ (∀ (server : ServerInfo) (statement : Stmt) (counters : Counters)
        (plan : Ptr (Plan Value)) (profile : Ptr (ProfiledPlan Value))
        (notifications : Slice Notification)
        (resultAvailableAfter resultConsumedAfter : Int),
      ResultSummary.StatementType (some (ResultSummary.mk server statement
          zeroStatementType counters plan profile notifications resultAvailableAfter
          resultConsumedAfter)) = Except.ok StatementTypeUnknown
      ∧ ResultSummary.StatementType (some (ResultSummary.mk server statement
          zeroStatementType counters plan profile notifications resultAvailableAfter
          resultConsumedAfter)) ≠ Except.ok StatementTypeReadOnly
      ∧ ResultSummary.StatementType (some (ResultSummary.mk server statement
          zeroStatementType counters plan profile notifications resultAvailableAfter
          resultConsumedAfter)) ≠ Except.ok StatementTypeReadWrite
      ∧ ResultSummary.StatementType (some (ResultSummary.mk server statement
          zeroStatementType counters plan profile notifications resultAvailableAfter
          resultConsumedAfter)) ≠ Except.ok StatementTypeWriteOnly
      ∧ ResultSummary.StatementType (some (ResultSummary.mk server statement
          zeroStatementType counters plan profile notifications resultAvailableAfter
          resultConsumedAfter)) ≠ Except.ok StatementTypeSchemaWrite) := by
  refine ⟨rfl, rfl, rfl, rfl, rfl, by decide, rfl, ?_⟩
  intro server statement counters plan profile notifications ra rc
  refine ⟨rfl, ?_, ?_, ?_, ?_⟩ <;>
    simp [ResultSummary.StatementType, Ptr.read, zeroStatementType,
      StatementTypeReadOnly, StatementTypeReadWrite, StatementTypeWriteOnly,
      StatementTypeSchemaWrite]

/-- Witness for claim C12: on the Counters with fields 1 through 11, calling all
eleven accessors twice in a row leaves the receiver as it was, and `PropertiesSet()`
called afterwards returns 5 as before. -/
theorem accessors_are_pure_reads_witness :
    runCalls (countersMethods ++ countersMethods)
        (some (Counters.mk 1 2 3 4 5 6 7 8 9 10 11))
      = Except.ok (some (Counters.mk 1 2 3 4 5 6 7 8 9 10 11))
    ∧ (runCalls (countersMethods ++ countersMethods)
        (some (Counters.mk 1 2 3 4 5 6 7 8 9 10 11)) >>= Counters.PropertiesSet)
      = Except.ok 5 := by
  have h := (@accessors_are_pure_reads Unit Unit).2.2.2.1.2
    (countersMethods ++ countersMethods)
    (fun m hm => (List.mem_append.mp hm).elim id id)
    (Counters.mk 1 2 3 4 5 6 7 8 9 10 11)
  refine ⟨h.1, ?_⟩
  rw [h.1]
  rfl

end Neo4j
